import Mathlib

/-!
Verification of the billing schedule and invoice generation engine of the
invoice application (backend/app/services/schedule_service.py,
pdf_service.py, invoice_engine.py and backend/app/core/security.py).

Dates are modelled as proleptic Gregorian calendar dates, exactly as
Python's `datetime.date`: a (year, month, day) triple, with the ordinal
count of days since 0001-01-01 (`date.toordinal`) computed by the same
formula the CPython `datetime` module uses.  Weekday numbering follows
`date.weekday()` (0 = Monday).  Decimal arithmetic is modelled inside ℚ
(Python `Decimal` values are rationals and every operation used by the
code is exact apart from the explicit `quantize` call, modelled here by
`quantize2`).
-/

set_option maxHeartbeats 1000000

namespace InvoiceApp

/-- A calendar date, mirroring `datetime.date`. -/
structure Date where
  year : Nat
  month : Nat
  day : Nat
deriving DecidableEq, Repr

/-- Gregorian leap-year rule, as in the `datetime` module. -/
def isLeap (y : Nat) : Bool :=
  (y % 4 == 0 && y % 100 != 0) || (y % 400 == 0)

theorem isLeap_iff (y : Nat) :
    isLeap y = true ↔ ((y % 4 = 0 ∧ y % 100 ≠ 0) ∨ y % 400 = 0) := by
  simp [isLeap]

/-- Number of days in a month, as in `datetime` (`_days_in_month`). -/
def daysInMonth (y m : Nat) : Nat :=
  if m = 2 then (if isLeap y then 29 else 28)
  else if m = 4 ∨ m = 6 ∨ m = 9 ∨ m = 11 then 30
  else 31

/-- A (year, month, day) triple that `datetime.date` would accept
(apart from the year-9999 upper bound, which is a representation limit of
CPython's `datetime`, not part of the calendar logic). -/
def Date.Valid (d : Date) : Prop :=
  1 ≤ d.year ∧ 1 ≤ d.month ∧ d.month ≤ 12 ∧ 1 ≤ d.day ∧ d.day ≤ daysInMonth d.year d.month

instance (d : Date) : Decidable d.Valid := by
  unfold Date.Valid; infer_instance

/-- Days in all years strictly before year `y`
(CPython `datetime._days_before_year`). -/
def daysBeforeYear (y : Nat) : Nat :=
  365 * (y - 1) + (y - 1) / 4 - (y - 1) / 100 + (y - 1) / 400

/-- Days in year `y` strictly before month `m`
(CPython `datetime._days_before_month`). -/
def daysBeforeMonth (y m : Nat) : Nat :=
  (match m with
   | 1 => 0 | 2 => 31 | 3 => 59 | 4 => 90 | 5 => 120 | 6 => 151
   | 7 => 181 | 8 => 212 | 9 => 243 | 10 => 273 | 11 => 304 | _ => 334)
  + (if 2 < m ∧ isLeap y then 1 else 0)

/-- `date.toordinal()`: day number with 0001-01-01 ↦ 1. -/
def Date.ord (d : Date) : Nat :=
  daysBeforeYear d.year + daysBeforeMonth d.year d.month + d.day

/-- `date.weekday()`: 0 = Monday, …, 6 = Sunday
(0001-01-01 is a Monday in the proleptic Gregorian calendar). -/
def Date.weekday (d : Date) : Nat := (d.ord + 6) % 7

/-- The calendar successor of a date (`d + timedelta(days=1)`). -/
def nextDay (d : Date) : Date :=
  if d.day < daysInMonth d.year d.month then ⟨d.year, d.month, d.day + 1⟩
  else if d.month < 12 then ⟨d.year, d.month + 1, 1⟩
  else ⟨d.year + 1, 1, 1⟩

/-- The calendar predecessor of a date (`d - timedelta(days=1)`). -/
def prevDay (d : Date) : Date :=
  if 1 < d.day then ⟨d.year, d.month, d.day - 1⟩
  else if 1 < d.month then ⟨d.year, d.month - 1, daysInMonth d.year (d.month - 1)⟩
  else ⟨d.year - 1, 12, 31⟩

/-- `d + timedelta(days=n)`. -/
def addDays : Date → Nat → Date
  | d, 0 => d
  | d, n + 1 => addDays (nextDay d) n

/-- `d - timedelta(days=n)`. -/
def subDays : Date → Nat → Date
  | d, 0 => d
  | d, n + 1 => subDays (prevDay d) n

theorem daysInMonth_pos (y m : Nat) : 1 ≤ daysInMonth y m := by
  unfold daysInMonth; split_ifs <;> omega

theorem daysInMonth_le (y m : Nat) : daysInMonth y m ≤ 31 := by
  unfold daysInMonth; split_ifs <;> omega

theorem daysBeforeYear_succ (y : Nat) (h : 1 ≤ y) :
    daysBeforeYear (y + 1) = daysBeforeYear y + 365 + (if isLeap y then 1 else 0) := by
  by_cases hc : (y % 4 = 0 ∧ y % 100 ≠ 0) ∨ y % 400 = 0
  · rw [if_pos ((isLeap_iff y).mpr hc)]
    unfold daysBeforeYear; omega
  · rw [if_neg (fun hh => hc ((isLeap_iff y).mp hh))]
    unfold daysBeforeYear; omega

theorem daysBeforeYear_mono {a b : Nat} (h : a ≤ b) :
    daysBeforeYear a ≤ daysBeforeYear b := by
  unfold daysBeforeYear
  have h4 : (a - 1) / 4 ≤ (b - 1) / 4 := Nat.div_le_div_right (Nat.sub_le_sub_right h 1)
  have h100 : (a - 1) / 100 ≤ (b - 1) / 100 := Nat.div_le_div_right (Nat.sub_le_sub_right h 1)
  have h400 : (a - 1) / 400 ≤ (b - 1) / 400 := Nat.div_le_div_right (Nat.sub_le_sub_right h 1)
  omega

theorem daysBeforeMonth_succ (y m : Nat) (h1 : 1 ≤ m) (h2 : m ≤ 11) :
    daysBeforeMonth y (m + 1) = daysBeforeMonth y m + daysInMonth y m := by
  interval_cases m <;> by_cases hL : isLeap y = true <;>
    simp [daysBeforeMonth, daysInMonth, hL]

theorem daysBeforeMonth_year (y m : Nat) (h1 : 1 ≤ m) (h2 : m ≤ 12) :
    daysBeforeMonth y m + daysInMonth y m ≤ 365 + (if isLeap y then 1 else 0) := by
  interval_cases m <;> by_cases hL : isLeap y = true <;>
    simp [daysBeforeMonth, daysInMonth, hL]

theorem daysBeforeMonth_le (y : Nat) {a b : Nat} (h1 : 1 ≤ a) (h2 : b ≤ 12) (h : a ≤ b) :
    daysBeforeMonth y a ≤ daysBeforeMonth y b := by
  induction b with
  | zero => omega
  | succ n ih =>
    rcases Nat.lt_or_ge a (n + 1) with hlt | hge
    · have hs := daysBeforeMonth_succ y n (by omega) (by omega)
      have hih := ih (by omega) (by omega)
      have hp := daysInMonth_pos y n
      omega
    · have : a = n + 1 := by omega
      subst this; exact le_refl _

/-- Ordinal bounds for a valid date within its own year. -/
theorem ord_year_bounds (d : Date) (h : d.Valid) :
    daysBeforeYear d.year + 1 ≤ d.ord ∧
      d.ord ≤ daysBeforeYear d.year + 365 + (if isLeap d.year then 1 else 0) := by
  obtain ⟨hy, hm1, hm2, hd1, hd2⟩ := h
  have h1 := daysBeforeMonth_year d.year d.month hm1 hm2
  unfold Date.ord
  omega

theorem ord_pos (d : Date) (h : d.Valid) : 1 ≤ d.ord := by
  have := ord_year_bounds d h
  omega

theorem nextDay_valid (d : Date) (h : d.Valid) : (nextDay d).Valid := by
  obtain ⟨hy, hm1, hm2, hd1, hd2⟩ := h
  unfold nextDay
  split_ifs with h1 h2
  · exact ⟨hy, hm1, hm2, by show 1 ≤ d.day + 1; omega,
      by show d.day + 1 ≤ daysInMonth d.year d.month; omega⟩
  · exact ⟨hy, by show 1 ≤ d.month + 1; omega, by show d.month + 1 ≤ 12; omega,
      le_refl 1, by show 1 ≤ daysInMonth d.year (d.month + 1); exact daysInMonth_pos _ _⟩
  · exact ⟨by show 1 ≤ d.year + 1; omega, le_refl 1, by show (1 : Nat) ≤ 12; omega,
      le_refl 1, by show 1 ≤ daysInMonth (d.year + 1) 1; exact daysInMonth_pos _ _⟩

theorem ord_nextDay (d : Date) (h : d.Valid) : (nextDay d).ord = d.ord + 1 := by
  obtain ⟨hy, hm1, hm2, hd1, hd2⟩ := h
  unfold nextDay
  split_ifs with h1 h2
  · show daysBeforeYear d.year + daysBeforeMonth d.year d.month + (d.day + 1) = _ + 1
    unfold Date.ord; omega
  · show daysBeforeYear d.year + daysBeforeMonth d.year (d.month + 1) + 1 = _ + 1
    have hs := daysBeforeMonth_succ d.year d.month hm1 (by omega)
    unfold Date.ord; omega
  · have hm12 : d.month = 12 := by omega
    have hdim : daysInMonth d.year 12 = 31 := by norm_num [daysInMonth]
    have hday : d.day = 31 := by rw [hm12] at hd2 h1; omega
    show daysBeforeYear (d.year + 1) + daysBeforeMonth (d.year + 1) 1 + 1 = _ + 1
    have hBY := daysBeforeYear_succ d.year hy
    have h12 : daysBeforeMonth d.year 12 + daysInMonth d.year 12
        = 365 + (if isLeap d.year then 1 else 0) := by
      by_cases hL : isLeap d.year = true <;> simp [daysBeforeMonth, daysInMonth, hL]
    have hb1 : daysBeforeMonth (d.year + 1) 1 = 0 := by simp [daysBeforeMonth]
    unfold Date.ord
    rw [hm12, hday, hb1] at *
    omega

theorem addDays_valid (d : Date) (n : Nat) (h : d.Valid) : (addDays d n).Valid := by
  induction n generalizing d with
  | zero => exact h
  | succ k ih => exact ih (nextDay d) (nextDay_valid d h)

theorem ord_addDays (d : Date) (n : Nat) (h : d.Valid) :
    (addDays d n).ord = d.ord + n := by
  induction n generalizing d with
  | zero => rfl
  | succ k ih =>
    have h1 := ih (nextDay d) (nextDay_valid d h)
    have h2 := ord_nextDay d h
    show (addDays (nextDay d) k).ord = d.ord + (k + 1)
    omega

theorem prevDay_valid (d : Date) (h : d.Valid) (hmin : d ≠ ⟨1, 1, 1⟩) :
    (prevDay d).Valid := by
  obtain ⟨hy, hm1, hm2, hd1, hd2⟩ := h
  unfold prevDay
  split_ifs with h1 h2
  · exact ⟨hy, hm1, hm2, by show 1 ≤ d.day - 1; omega,
      by show d.day - 1 ≤ daysInMonth d.year d.month; omega⟩
  · exact ⟨hy, by show 1 ≤ d.month - 1; omega, by show d.month - 1 ≤ 12; omega,
      by show 1 ≤ daysInMonth d.year (d.month - 1); exact daysInMonth_pos _ _, le_refl _⟩
  · have hyy : 2 ≤ d.year := by
      rcases Nat.lt_or_ge d.year 2 with hlt | hge
      · exfalso; apply hmin
        have hy1 : d.year = 1 := by omega
        have hmm : d.month = 1 := by omega
        have hdd : d.day = 1 := by omega
        cases d; simp_all
      · exact hge
    exact ⟨by show 1 ≤ d.year - 1; omega, by show (1 : Nat) ≤ 12; omega, le_refl _,
      by show (1 : Nat) ≤ 31; omega,
      by show (31 : Nat) ≤ daysInMonth (d.year - 1) 12; norm_num [daysInMonth]⟩

theorem ord_prevDay (d : Date) (h : d.Valid) (hmin : d ≠ ⟨1, 1, 1⟩) :
    (prevDay d).ord + 1 = d.ord := by
  obtain ⟨hy, hm1, hm2, hd1, hd2⟩ := h
  unfold prevDay
  split_ifs with h1 h2
  · show daysBeforeYear d.year + daysBeforeMonth d.year d.month + (d.day - 1) + 1 = _
    unfold Date.ord; omega
  · show daysBeforeYear d.year + daysBeforeMonth d.year (d.month - 1)
        + daysInMonth d.year (d.month - 1) + 1 = _
    have hs := daysBeforeMonth_succ d.year (d.month - 1) (by omega) (by omega)
    have hmx : d.month - 1 + 1 = d.month := by omega
    rw [hmx] at hs
    have hdd : d.day = 1 := by omega
    unfold Date.ord; omega
  · have hyy : 2 ≤ d.year := by
      rcases Nat.lt_or_ge d.year 2 with hlt | hge
      · exfalso; apply hmin
        have hy1 : d.year = 1 := by omega
        have hmm : d.month = 1 := by omega
        have hdd : d.day = 1 := by omega
        cases d; simp_all
      · exact hge
    have hmm : d.month = 1 := by omega
    have hdd : d.day = 1 := by omega
    show daysBeforeYear (d.year - 1) + daysBeforeMonth (d.year - 1) 12 + 31 + 1 = _
    have hBY := daysBeforeYear_succ (d.year - 1) (by omega)
    have hys : d.year - 1 + 1 = d.year := by omega
    rw [hys] at hBY
    have h12 : daysBeforeMonth (d.year - 1) 12 + daysInMonth (d.year - 1) 12
        = 365 + (if isLeap (d.year - 1) then 1 else 0) := by
      by_cases hL : isLeap (d.year - 1) = true <;> simp [daysBeforeMonth, daysInMonth, hL]
    have hdim : daysInMonth (d.year - 1) 12 = 31 := by norm_num [daysInMonth]
    have hb1 : daysBeforeMonth d.year 1 = 0 := by simp [daysBeforeMonth]
    unfold Date.ord
    rw [hmm, hdd, hb1]
    omega

theorem subDays_valid_ord (d : Date) (n : Nat) (h : d.Valid) (hroom : n + 1 ≤ d.ord) :
    (subDays d n).Valid ∧ (subDays d n).ord + n = d.ord := by
  induction n generalizing d with
  | zero => exact ⟨h, rfl⟩
  | succ k ih =>
    have hne : d ≠ ⟨1, 1, 1⟩ := by
      intro he
      rw [he] at hroom
      have hone : Date.ord ⟨1, 1, 1⟩ = 1 := by decide
      omega
    have hp := prevDay_valid d h hne
    have ho := ord_prevDay d h hne
    obtain ⟨hv, he⟩ := ih (prevDay d) hp (by omega)
    refine ⟨hv, ?_⟩
    show (subDays (prevDay d) k).ord + (k + 1) = d.ord
    omega

/-- `ord` separates valid dates: distinct valid dates have distinct ordinals. -/
theorem ord_inj (a b : Date) (ha : a.Valid) (hb : b.Valid) (h : a.ord = b.ord) :
    a = b := by
  obtain ⟨hay, ham1, ham2, had1, had2⟩ := ha
  obtain ⟨hby, hbm1, hbm2, hbd1, hbd2⟩ := hb
  have hyear : a.year = b.year := by
    rcases Nat.lt_trichotomy a.year b.year with hlt | heq | hgt
    · exfalso
      have h1 := ord_year_bounds a ⟨hay, ham1, ham2, had1, had2⟩
      have h2 := ord_year_bounds b ⟨hby, hbm1, hbm2, hbd1, hbd2⟩
      have h3 := daysBeforeYear_succ a.year hay
      have h4 := daysBeforeYear_mono (show a.year + 1 ≤ b.year by omega)
      omega
    · exact heq
    · exfalso
      have h1 := ord_year_bounds a ⟨hay, ham1, ham2, had1, had2⟩
      have h2 := ord_year_bounds b ⟨hby, hbm1, hbm2, hbd1, hbd2⟩
      have h3 := daysBeforeYear_succ b.year hby
      have h4 := daysBeforeYear_mono (show b.year + 1 ≤ a.year by omega)
      omega
  have hmonth : a.month = b.month := by
    unfold Date.ord at h
    rw [← hyear] at h hbd2
    rcases Nat.lt_trichotomy a.month b.month with hlt | heq | hgt
    · exfalso
      have h1 := daysBeforeMonth_succ a.year a.month ham1 (by omega)
      have h2 := daysBeforeMonth_le a.year (show 1 ≤ a.month + 1 by omega) hbm2
        (show a.month + 1 ≤ b.month by omega)
      omega
    · exact heq
    · exfalso
      have h1 := daysBeforeMonth_succ a.year b.month hbm1 (by omega)
      have h2 := daysBeforeMonth_le a.year (show 1 ≤ b.month + 1 by omega) ham2
        (show b.month + 1 ≤ a.month by omega)
      omega
  have hday : a.day = b.day := by
    unfold Date.ord at h
    rw [← hyear, ← hmonth] at h
    omega
  cases a; cases b; simp_all

/-- Any valid date with ordinal at least `a.ord` is reached from `a` by
adding days. -/
theorem addDays_reach (a b : Date) (ha : a.Valid) (hb : b.Valid) (h : a.ord ≤ b.ord) :
    addDays a (b.ord - a.ord) = b := by
  apply ord_inj _ _ (addDays_valid a _ ha) hb
  rw [ord_addDays a _ ha]
  omega

/-! ## Schedule service (app/services/schedule_service.py) -/

/-- `BillingFrequency` (app/models/models.py). -/
inductive BillingFrequency where
  | weekly
  | biweekly
  | monthly
deriving DecidableEq, Repr

/-- `ScheduleConfig` (app/models/models.py), restricted to the fields the
schedule and engine logic reads. -/
structure ScheduleConfig where
  customer_id : Nat
  is_enabled : Bool
  auto_send_email : Bool
  billing_weekday : Nat
  anchor_date : Date
  billing_day : Nat
  last_run_date : Option Date
  next_run_date : Option Date
deriving DecidableEq, Repr

/-- `ScheduleService.compute_billing_period`. -/
def computeBillingPeriod (run_date : Date) (frequency : BillingFrequency) : Date × Date :=
  let period_end := prevDay run_date
  match frequency with
  | .weekly => (subDays period_end 6, period_end)
  | .biweekly => (subDays period_end 13, period_end)
  | .monthly =>
      let e := prevDay ⟨run_date.year, run_date.month, 1⟩
      (⟨e.year, e.month, 1⟩, e)

/-- `ScheduleService.should_invoice_today`.  The Python `%` on ints with a
positive divisor is `Int.emod`. -/
def shouldInvoiceToday (run_date : Date) (frequency : BillingFrequency)
    (schedule : ScheduleConfig) : Bool :=
  if !schedule.is_enabled then false
  else match frequency with
  | .weekly => run_date.weekday == schedule.billing_weekday
  | .biweekly =>
      if run_date.weekday != schedule.billing_weekday then false
      else ((run_date.ord : Int) - (schedule.anchor_date.ord : Int)) % 14 == 0
  | .monthly => run_date.day == schedule.billing_day

/-- The bounded forward scan in `ScheduleService.compute_next_invoice_date`
(`for _ in range(n): if due: return; check_date += 1 day`). -/
def scanDue (frequency : BillingFrequency) (schedule : ScheduleConfig) :
    Date → Nat → Option Date
  | _, 0 => none
  | d, n + 1 =>
      if shouldInvoiceToday d frequency schedule then some d
      else scanDue frequency schedule (nextDay d) n

/-- The closed-form fallback of `ScheduleService.compute_next_invoice_date`,
reached only when the 60-day scan finds no match. -/
def nextDueFallback (from_date : Date) (frequency : BillingFrequency)
    (schedule : ScheduleConfig) : Date :=
  match frequency with
  | .weekly =>
      let du := (((schedule.billing_weekday : Int) - (from_date.weekday : Int)) % 7).toNat
      addDays from_date (if du = 0 then 7 else du)
  | .biweekly =>
      let du := (((schedule.billing_weekday : Int) - (from_date.weekday : Int)) % 7).toNat
      let next_date := addDays from_date (if du = 0 then 7 else du)
      if ((next_date.ord : Int) - (schedule.anchor_date.ord : Int)) % 14 ≠ 0 then
        addDays next_date 7
      else next_date
  | .monthly =>
      if from_date.day < schedule.billing_day ∧
          schedule.billing_day ≤ daysInMonth from_date.year from_date.month then
        ⟨from_date.year, from_date.month, schedule.billing_day⟩
      else
        let next_month : Date :=
          if from_date.month = 12 then ⟨from_date.year + 1, 1, 1⟩
          else ⟨from_date.year, from_date.month + 1, 1⟩
        if schedule.billing_day ≤ daysInMonth next_month.year next_month.month then
          ⟨next_month.year, next_month.month, schedule.billing_day⟩
        else
          prevDay (if next_month.month = 12 then ⟨next_month.year + 1, 1, 1⟩
                   else ⟨next_month.year, next_month.month + 1, 1⟩)

/-- `ScheduleService.compute_next_invoice_date`: a 60-day scan of
`should_invoice_today`, then the closed-form per-frequency fallback. -/
def computeNextInvoiceDate (from_date : Date) (frequency : BillingFrequency)
    (schedule : ScheduleConfig) : Date :=
  match scanDue frequency schedule from_date 60 with
  | some d => d
  | none => nextDueFallback from_date frequency schedule

theorem ord_mk (y m d : Nat) :
    Date.ord ⟨y, m, d⟩ = daysBeforeYear y + daysBeforeMonth y m + d := rfl

/-- C1: for every run_date, `compute_billing_period` returns an inclusive
period that never includes run_date (its end is strictly before run_date)
and whose length matches the frequency: weekly ends at run_date − 1 and
spans 7 days, biweekly ends at run_date − 1 and spans 14 days, and monthly
returns exactly the entire previous calendar month (first through last day
of the month before run_date's month), ignoring run_date's day-of-month
entirely. -/
theorem compute_billing_period_spec (run_date : Date) (frequency : BillingFrequency)
    (hv : run_date.Valid) (hy : 2 ≤ run_date.year) :
    (computeBillingPeriod run_date frequency).1.Valid ∧
    (computeBillingPeriod run_date frequency).2.Valid ∧
    (computeBillingPeriod run_date frequency).2.ord < run_date.ord ∧
    (frequency = .weekly →
      (computeBillingPeriod run_date frequency).2.ord + 1 = run_date.ord ∧
      (computeBillingPeriod run_date frequency).1.ord + 6
        = (computeBillingPeriod run_date frequency).2.ord) ∧
    (frequency = .biweekly →
      (computeBillingPeriod run_date frequency).2.ord + 1 = run_date.ord ∧
      (computeBillingPeriod run_date frequency).1.ord + 13
        = (computeBillingPeriod run_date frequency).2.ord) ∧
    (frequency = .monthly →
      (run_date.month = 1 →
        (computeBillingPeriod run_date frequency).1 = ⟨run_date.year - 1, 12, 1⟩ ∧
        (computeBillingPeriod run_date frequency).2 = ⟨run_date.year - 1, 12, 31⟩) ∧
      (2 ≤ run_date.month →
        (computeBillingPeriod run_date frequency).1 = ⟨run_date.year, run_date.month - 1, 1⟩ ∧
        (computeBillingPeriod run_date frequency).2
          = ⟨run_date.year, run_date.month - 1, daysInMonth run_date.year (run_date.month - 1)⟩) ∧
      (computeBillingPeriod run_date frequency).1.ord +
          (daysInMonth (computeBillingPeriod run_date frequency).1.year
            (computeBillingPeriod run_date frequency).1.month - 1)
        = (computeBillingPeriod run_date frequency).2.ord) := by
  have hne : run_date ≠ ⟨1, 1, 1⟩ := by
    intro h; subst h; simp at hy
  have h366 : 366 ≤ run_date.ord := by
    have hb := (ord_year_bounds run_date hv).1
    have hm := daysBeforeYear_mono hy
    have h2 : daysBeforeYear 2 = 365 := by norm_num [daysBeforeYear]
    omega
  have hpv := prevDay_valid run_date hv hne
  have hpo := ord_prevDay run_date hv hne
  cases frequency with
  | weekly =>
    simp only [computeBillingPeriod]
    obtain ⟨hsv, hso⟩ := subDays_valid_ord (prevDay run_date) 6 hpv (by omega)
    exact ⟨hsv, hpv, by omega, fun _ => ⟨by omega, by omega⟩, nofun, nofun⟩
  | biweekly =>
    simp only [computeBillingPeriod]
    obtain ⟨hsv, hso⟩ := subDays_valid_ord (prevDay run_date) 13 hpv (by omega)
    exact ⟨hsv, hpv, by omega, nofun, fun _ => ⟨by omega, by omega⟩, nofun⟩
  | monthly =>
    simp only [computeBillingPeriod]
    have hfv : (⟨run_date.year, run_date.month, 1⟩ : Date).Valid := by
      obtain ⟨a, b, c, d1, e⟩ := hv
      exact ⟨a, b, c, le_refl _, daysInMonth_pos _ _⟩
    have hfne : (⟨run_date.year, run_date.month, 1⟩ : Date) ≠ ⟨1, 1, 1⟩ := by
      intro h
      have hh := congrArg Date.year h
      simp at hh
      omega
    have hfval := prevDay_valid _ hfv hfne
    have hfo := ord_prevDay _ hfv hfne
    have hord1 : (prevDay (⟨run_date.year, run_date.month, 1⟩ : Date)).ord < run_date.ord := by
      have hmk := ord_mk run_date.year run_date.month 1
      have hrun : run_date.ord
          = daysBeforeYear run_date.year + daysBeforeMonth run_date.year run_date.month
            + run_date.day := rfl
      obtain ⟨_, _, _, hd1, _⟩ := hv
      omega
    rcases Nat.lt_or_ge run_date.month 2 with hmlt | hmge
    · have hmeq : run_date.month = 1 := by
        obtain ⟨_, hb, _, _, _⟩ := hv; omega
      have he : prevDay (⟨run_date.year, run_date.month, 1⟩ : Date)
          = ⟨run_date.year - 1, 12, 31⟩ := by
        rw [hmeq]
        rfl
      rw [he] at hord1 hfval ⊢
      have d12 : daysInMonth (run_date.year - 1) 12 = 31 := by norm_num [daysInMonth]
      refine ⟨?_, hfval, hord1, nofun, nofun,
        fun _ => ⟨fun _ => ⟨rfl, rfl⟩, fun hc => absurd hc (by omega), ?_⟩⟩
      · exact ⟨show 1 ≤ run_date.year - 1 by omega, show (1 : Nat) ≤ 12 by omega,
          show (12 : Nat) ≤ 12 by omega, le_refl _,
          show 1 ≤ daysInMonth (run_date.year - 1) 12 from daysInMonth_pos _ _⟩
      · show Date.ord ⟨run_date.year - 1, 12, 1⟩ + (daysInMonth (run_date.year - 1) 12 - 1)
            = Date.ord ⟨run_date.year - 1, 12, 31⟩
        rw [ord_mk, ord_mk, d12]
    · have he : prevDay (⟨run_date.year, run_date.month, 1⟩ : Date)
          = ⟨run_date.year, run_date.month - 1,
              daysInMonth run_date.year (run_date.month - 1)⟩ := by
        unfold prevDay
        simp only []
        rw [if_pos (show 1 < run_date.month by omega), if_neg (show ¬ (1 : Nat) < 1 by omega)]
      rw [he] at hord1 hfval ⊢
      obtain ⟨ha, hb, hc, _, _⟩ := hv
      refine ⟨?_, hfval, hord1, nofun, nofun,
        fun _ => ⟨fun hcn => absurd hcn (by omega), fun _ => ⟨rfl, rfl⟩, ?_⟩⟩
      · exact ⟨ha, show 1 ≤ run_date.month - 1 by omega, show run_date.month - 1 ≤ 12 by omega,
          le_refl _, show 1 ≤ daysInMonth run_date.year (run_date.month - 1) from
            daysInMonth_pos _ _⟩
      · show Date.ord ⟨run_date.year, run_date.month - 1, 1⟩ +
            (daysInMonth run_date.year (run_date.month - 1) - 1)
            = Date.ord ⟨run_date.year, run_date.month - 1,
                daysInMonth run_date.year (run_date.month - 1)⟩
        rw [ord_mk, ord_mk]
        have := daysInMonth_pos run_date.year (run_date.month - 1)
        omega

/-- Witness for C1 at the spec's own scenario: run date 2026-03-01 with
monthly frequency yields the period 2026-02-01 .. 2026-02-28, which ends
strictly before the run date. -/
theorem compute_billing_period_spec_witness :
    (computeBillingPeriod ⟨2026, 3, 1⟩ BillingFrequency.monthly).1 = ⟨2026, 2, 1⟩ ∧
    (computeBillingPeriod ⟨2026, 3, 1⟩ BillingFrequency.monthly).2 = ⟨2026, 2, 28⟩ ∧
    (computeBillingPeriod ⟨2026, 3, 1⟩ BillingFrequency.monthly).2.ord
      < (⟨2026, 3, 1⟩ : Date).ord :=
  ⟨by decide, by decide,
    (compute_billing_period_spec ⟨2026, 3, 1⟩ .monthly (by decide) (by decide)).2.2.1⟩

/-- C2: `should_invoice_today` is false whenever the schedule is disabled;
for an enabled schedule it is: weekly — true iff the run date's weekday
equals `billing_weekday`; biweekly — true iff additionally the day count
since `anchor_date` is ≡ 0 (mod 14); monthly — true iff the run date's
day-of-month equals `billing_day`, with no end-of-month clamping, so a
`billing_day` exceeding the month's length makes the month never due. -/
theorem should_invoice_today_spec (run_date : Date) (s : ScheduleConfig) :
    (s.is_enabled = false → ∀ f, shouldInvoiceToday run_date f s = false) ∧
    (s.is_enabled = true →
      ((shouldInvoiceToday run_date .weekly s = true ↔
          run_date.weekday = s.billing_weekday) ∧
       (shouldInvoiceToday run_date .biweekly s = true ↔
          run_date.weekday = s.billing_weekday ∧
          ((run_date.ord : Int) - (s.anchor_date.ord : Int)) % 14 = 0) ∧
       (shouldInvoiceToday run_date .monthly s = true ↔
          run_date.day = s.billing_day))) ∧
    (run_date.Valid → daysInMonth run_date.year run_date.month < s.billing_day →
      shouldInvoiceToday run_date .monthly s = false) := by
  refine ⟨?_, ?_, ?_⟩
  · intro hd f
    cases f <;> simp [shouldInvoiceToday, hd]
  · intro he
    refine ⟨?_, ?_, ?_⟩
    · simp [shouldInvoiceToday, he]
    · by_cases hw : run_date.weekday = s.billing_weekday <;>
        simp [shouldInvoiceToday, he, hw]
    · simp [shouldInvoiceToday, he]
  · intro hvv hlt
    obtain ⟨_, _, _, _, hd2⟩ := hvv
    cases hen : s.is_enabled <;> simp [shouldInvoiceToday, hen] <;> omega

/-- Witness for C2: billing_day 31 in February 2026 (28 days) is never due. -/
theorem should_invoice_today_spec_witness :
    shouldInvoiceToday ⟨2026, 2, 15⟩ BillingFrequency.monthly
      ⟨1, true, false, 4, ⟨2026, 1, 2⟩, 31, none, none⟩ = false :=
  (should_invoice_today_spec ⟨2026, 2, 15⟩
    ⟨1, true, false, 4, ⟨2026, 1, 2⟩, 31, none, none⟩).2.2 (by decide) (by decide)

theorem weekday_lt (d : Date) : d.weekday < 7 := Nat.mod_lt _ (by norm_num)

theorem weekday_addDays (d : Date) (k : Nat) (h : d.Valid) :
    (addDays d k).weekday = (d.weekday + k) % 7 := by
  unfold Date.weekday
  rw [ord_addDays d k h]
  omega

theorem scanDue_some (f : BillingFrequency) (s : ScheduleConfig) :
    ∀ (n : Nat) (d r : Date), d.Valid → scanDue f s d n = some r →
      r.Valid ∧ shouldInvoiceToday r f s = true ∧ d.ord ≤ r.ord := by
  intro n
  induction n with
  | zero => intro d r _ h; simp [scanDue] at h
  | succ k ih =>
    intro d r hv h
    unfold scanDue at h
    by_cases hd : shouldInvoiceToday d f s = true
    · rw [if_pos hd] at h
      cases h
      exact ⟨hv, hd, le_refl _⟩
    · rw [if_neg hd] at h
      obtain ⟨h1, h2, h3⟩ := ih (nextDay d) r (nextDay_valid d hv) h
      have := ord_nextDay d hv
      exact ⟨h1, h2, by omega⟩

theorem scanDue_none (f : BillingFrequency) (s : ScheduleConfig) :
    ∀ (n : Nat) (d : Date), scanDue f s d n = none →
      ∀ k, k < n → shouldInvoiceToday (addDays d k) f s = false := by
  intro n
  induction n with
  | zero => intro d _ k hk; omega
  | succ m ih =>
    intro d h k hk
    unfold scanDue at h
    by_cases hd : shouldInvoiceToday d f s = true
    · rw [if_pos hd] at h; cases h
    · rw [if_neg hd] at h
      cases k with
      | zero =>
        show shouldInvoiceToday d f s = false
        revert hd; cases shouldInvoiceToday d f s <;> simp
      | succ j =>
        show shouldInvoiceToday (addDays (nextDay d) j) f s = false
        exact ih (nextDay d) h j (by omega)

/-- The monthly closed-form fallback returns a valid, due date at or after
`from_date` whenever the scan found nothing and `billing_day` is in 1..31. -/
theorem nextDueFallback_monthly_ok (from_date : Date) (s : ScheduleConfig)
    (hv : from_date.Valid) (he : s.is_enabled = true)
    (hbd1 : 1 ≤ s.billing_day) (hbd31 : s.billing_day ≤ 31)
    (hnone : ∀ k, k < 60 → (addDays from_date k).day ≠ s.billing_day) :
    (nextDueFallback from_date .monthly s).Valid ∧
    from_date.ord ≤ (nextDueFallback from_date .monthly s).ord ∧
    shouldInvoiceToday (nextDueFallback from_date .monthly s) .monthly s = true := by
  obtain ⟨hy, hm1, hm2, hd1, hd2⟩ := hv
  have hfo : from_date.ord = daysBeforeYear from_date.year
      + daysBeforeMonth from_date.year from_date.month + from_date.day := rfl
  unfold nextDueFallback
  simp only []
  by_cases h1 : from_date.day < s.billing_day ∧
      s.billing_day ≤ daysInMonth from_date.year from_date.month
  · rw [if_pos h1]
    obtain ⟨h1a, h1b⟩ := h1
    refine ⟨⟨?_, ?_, ?_, ?_, ?_⟩, ?_, ?_⟩
    · show 1 ≤ from_date.year; omega
    · show 1 ≤ from_date.month; omega
    · show from_date.month ≤ 12; omega
    · show 1 ≤ s.billing_day; omega
    · show s.billing_day ≤ daysInMonth from_date.year from_date.month; omega
    · show from_date.ord ≤ Date.ord ⟨from_date.year, from_date.month, s.billing_day⟩
      have hbo := ord_mk from_date.year from_date.month s.billing_day
      omega
    · simp [shouldInvoiceToday, he]
  · rw [if_neg h1]
    rcases Decidable.em (from_date.month = 12) with hm12 | hm12
    · rw [if_pos hm12]
      simp only []
      have hdim1 : daysInMonth (from_date.year + 1) 1 = 31 := by norm_num [daysInMonth]
      rw [if_pos (show s.billing_day ≤ daysInMonth (from_date.year + 1) 1 by omega)]
      refine ⟨⟨?_, ?_, ?_, ?_, ?_⟩, ?_, ?_⟩
      · show 1 ≤ from_date.year + 1; omega
      · show (1 : Nat) ≤ 1; omega
      · show (1 : Nat) ≤ 12; omega
      · show 1 ≤ s.billing_day; omega
      · show s.billing_day ≤ daysInMonth (from_date.year + 1) 1; omega
      · show from_date.ord ≤ Date.ord ⟨from_date.year + 1, 1, s.billing_day⟩
        have hbo := ord_mk (from_date.year + 1) 1 s.billing_day
        have hb1 : daysBeforeMonth (from_date.year + 1) 1 = 0 := by simp [daysBeforeMonth]
        have hBY := daysBeforeYear_succ from_date.year hy
        have hyb := daysBeforeMonth_year from_date.year from_date.month hm1 hm2
        by_cases hL : isLeap from_date.year = true <;> simp [hL] at hBY hyb <;> omega
      · simp [shouldInvoiceToday, he]
    · rw [if_neg hm12]
      simp only []
      by_cases h2 : s.billing_day ≤ daysInMonth from_date.year (from_date.month + 1)
      · rw [if_pos h2]
        have hsucc := daysBeforeMonth_succ from_date.year from_date.month hm1 (by omega)
        refine ⟨⟨?_, ?_, ?_, ?_, ?_⟩, ?_, ?_⟩
        · show 1 ≤ from_date.year; omega
        · show 1 ≤ from_date.month + 1; omega
        · show from_date.month + 1 ≤ 12; omega
        · show 1 ≤ s.billing_day; omega
        · show s.billing_day ≤ daysInMonth from_date.year (from_date.month + 1); omega
        · show from_date.ord ≤ Date.ord ⟨from_date.year, from_date.month + 1, s.billing_day⟩
          have hbo := ord_mk from_date.year (from_date.month + 1) s.billing_day
          omega
        · simp [shouldInvoiceToday, he]
      · rw [if_neg h2]
        exfalso
        have hlt : daysInMonth from_date.year (from_date.month + 1) < s.billing_day := by
          omega
        have hmcase : from_date.month + 1 = 2 ∨ from_date.month + 1 = 4 ∨
            from_date.month + 1 = 6 ∨ from_date.month + 1 = 9 ∨ from_date.month + 1 = 11 := by
          by_contra hno
          push_neg at hno
          unfold daysInMonth at hlt
          rw [if_neg (by omega), if_neg (by omega)] at hlt
          omega
        rcases hmcase with hmc | hmc
        · -- from month January, February lacks billing_day
          have hmeq : from_date.month = 1 := by omega
          have hdimf : daysInMonth from_date.year from_date.month = 31 := by
            rw [hmeq]; norm_num [daysInMonth]
          have hfeb : 28 ≤ daysInMonth from_date.year 2 ∧
              daysInMonth from_date.year 2 ≤ 29 := by
            unfold daysInMonth; split_ifs <;> omega
          have hfeb2 : daysInMonth from_date.year (from_date.month + 1)
              = daysInMonth from_date.year 2 := by rw [hmeq]
          have hday : s.billing_day ≤ from_date.day := by
            rcases Decidable.em (from_date.day < s.billing_day) with hc | hc
            · exact absurd ⟨hc, by omega⟩ h1
            · omega
          rcases Nat.lt_or_ge s.billing_day from_date.day with hgt | hge
          · -- the scan reaches ⟨year, 3, billing_day⟩ within 60 days: contradiction
            have hdbm3 : 59 ≤ daysBeforeMonth from_date.year 3 ∧
                daysBeforeMonth from_date.year 3 ≤ 60 := by
              by_cases hL : isLeap from_date.year = true <;> simp [daysBeforeMonth, hL]
            have hdim3 : daysInMonth from_date.year 3 = 31 := by norm_num [daysInMonth]
            have hb3 : (⟨from_date.year, 3, s.billing_day⟩ : Date).Valid := by
              refine ⟨?_, ?_, ?_, ?_, ?_⟩
              · show 1 ≤ from_date.year; omega
              · show (1 : Nat) ≤ 3; omega
              · show (3 : Nat) ≤ 12; omega
              · show 1 ≤ s.billing_day; omega
              · show s.billing_day ≤ daysInMonth from_date.year 3; omega
            have hdbm1 : daysBeforeMonth from_date.year 1 = 0 := by simp [daysBeforeMonth]
            have hbo := ord_mk from_date.year 3 s.billing_day
            rw [hmeq] at hfo
            rw [hdbm1] at hfo
            have hle : from_date.ord ≤ (⟨from_date.year, 3, s.billing_day⟩ : Date).ord := by
              omega
            have hreach := addDays_reach from_date ⟨from_date.year, 3, s.billing_day⟩
              ⟨hy, hm1, hm2, hd1, hd2⟩ hb3 hle
            have hk60 : (⟨from_date.year, 3, s.billing_day⟩ : Date).ord - from_date.ord
                < 60 := by
              rw [hmeq] at hd2
              omega
            have hne := hnone _ hk60
            rw [hreach] at hne
            exact hne rfl
          · have hde : from_date.day = s.billing_day := by omega
            have hne := hnone 0 (by omega)
            exact hne hde
        · -- from month in {3,5,8,10}: it has 31 days, so day = billing_day = 31
          have hdimf : daysInMonth from_date.year from_date.month = 31 := by
            unfold daysInMonth
            rw [if_neg (by omega), if_neg (by omega)]
          have hdimn : daysInMonth from_date.year (from_date.month + 1) = 30 := by
            unfold daysInMonth
            rw [if_neg (by omega), if_pos (by omega)]
          have hbd : s.billing_day = 31 := by omega
          have hday : s.billing_day ≤ from_date.day := by
            rcases Decidable.em (from_date.day < s.billing_day) with hc | hc
            · exact absurd ⟨hc, by omega⟩ h1
            · omega
          have hde : from_date.day = s.billing_day := by omega
          have hne := hnone 0 (by omega)
          exact hne hde

/-- C4 (amended): for a schedule that can ever be due — enabled, with
`billing_weekday` in 0..6 for weekly, additionally an anchor date on the
billing weekday for biweekly, and `billing_day` in 1..31 for monthly —
`compute_next_invoice_date` returns a valid date that is ≥ `from_date` and
at which `should_invoice_today` is true. -/
theorem compute_next_invoice_date_spec (from_date : Date) (frequency : BillingFrequency)
    (s : ScheduleConfig) (hv : from_date.Valid) (he : s.is_enabled = true)
    (hok : match frequency with
      | .weekly => s.billing_weekday < 7
      | .biweekly => s.billing_weekday < 7 ∧ s.anchor_date.Valid ∧
          s.anchor_date.weekday = s.billing_weekday
      | .monthly => 1 ≤ s.billing_day ∧ s.billing_day ≤ 31) :
    (computeNextInvoiceDate from_date frequency s).Valid ∧
    from_date.ord ≤ (computeNextInvoiceDate from_date frequency s).ord ∧
    shouldInvoiceToday (computeNextInvoiceDate from_date frequency s) frequency s = true := by
  unfold computeNextInvoiceDate
  cases hscan : scanDue frequency s from_date 60 with
  | some r =>
    obtain ⟨h1, h2, h3⟩ := scanDue_some frequency s 60 from_date r hv hscan
    exact ⟨h1, h3, h2⟩
  | none =>
    have hnone := scanDue_none frequency s 60 from_date hscan
    cases frequency with
    | weekly =>
      exfalso
      have hbw : s.billing_weekday < 7 := hok
      have hw := weekday_lt from_date
      set k := (s.billing_weekday + 7 - from_date.weekday) % 7 with hk
      have hk7 : k < 7 := Nat.mod_lt _ (by norm_num)
      have hwk : (addDays from_date k).weekday = s.billing_weekday := by
        rw [weekday_addDays from_date k hv]
        omega
      have hdue : shouldInvoiceToday (addDays from_date k) .weekly s = true := by
        simp [shouldInvoiceToday, he, hwk]
      have := hnone k (by omega)
      rw [this] at hdue
      cases hdue
    | biweekly =>
      exfalso
      obtain ⟨hbw, hav, haw⟩ := hok
      have hw := weekday_lt from_date
      have hwd : from_date.weekday = (from_date.ord + 6) % 7 := rfl
      have haw7 : (s.anchor_date.ord + 6) % 7 = s.billing_weekday := haw
      set k0 := (s.billing_weekday + 7 - from_date.weekday) % 7 with hk0
      have hk07 : k0 < 7 := Nat.mod_lt _ (by norm_num)
      have hweq : ∀ j : Nat, (from_date.weekday + (k0 + 7 * j)) % 7 = s.billing_weekday := by
        intro j
        omega
      -- the weekday-matching offsets sit on a 7-day grid through the anchor
      have h7 : ((from_date.ord + k0 : Int) - s.anchor_date.ord) % 7 = 0 := by
        omega
      -- one of the first two weekday matches is on the right 14-day phase
      have hcases :
          ((from_date.ord + k0 : Int) - s.anchor_date.ord) % 14 = 0 ∨
          ((from_date.ord + (k0 + 7) : Int) - s.anchor_date.ord) % 14 = 0 := by
        omega
      have hpick : ∃ k, k < 60 ∧ (addDays from_date k).weekday = s.billing_weekday ∧
          (((addDays from_date k).ord : Int) - s.anchor_date.ord) % 14 = 0 := by
        rcases hcases with hc | hc
        · refine ⟨k0, by omega, ?_, ?_⟩
          · rw [weekday_addDays from_date k0 hv]
            have := hweq 0
            omega
          · rw [ord_addDays from_date k0 hv]
            push_cast
            omega
        · refine ⟨k0 + 7, by omega, ?_, ?_⟩
          · rw [weekday_addDays from_date (k0 + 7) hv]
            have := hweq 1
            omega
          · rw [ord_addDays from_date (k0 + 7) hv]
            push_cast
            omega
      obtain ⟨k, hk60, hwk, hmod⟩ := hpick
      have hdue : shouldInvoiceToday (addDays from_date k) .biweekly s = true := by
        simp [shouldInvoiceToday, he, hwk, hmod]
      have := hnone k hk60
      rw [this] at hdue
      cases hdue
    | monthly =>
      obtain ⟨hbd1, hbd31⟩ := hok
      have hnone' : ∀ k, k < 60 → (addDays from_date k).day ≠ s.billing_day := by
        intro k hk hcontra
        have hf := hnone k hk
        rw [shouldInvoiceToday] at hf
        simp [he, hcontra] at hf
      exact nextDueFallback_monthly_ok from_date s hv he hbd1 hbd31 hnone'

/-- Witness for C4 (amended), applying it at a concrete enabled monthly
schedule: from 2026-02-10 with billing_day 31 the next due date is
2026-03-31. -/
theorem compute_next_invoice_date_spec_witness :
    computeNextInvoiceDate ⟨2026, 2, 10⟩ BillingFrequency.monthly
        ⟨1, true, false, 4, ⟨2026, 1, 2⟩, 31, none, none⟩ = ⟨2026, 3, 31⟩ ∧
    shouldInvoiceToday
      (computeNextInvoiceDate ⟨2026, 2, 10⟩ BillingFrequency.monthly
        ⟨1, true, false, 4, ⟨2026, 1, 2⟩, 31, none, none⟩)
      BillingFrequency.monthly ⟨1, true, false, 4, ⟨2026, 1, 2⟩, 31, none, none⟩ = true :=
  ⟨by decide,
    (compute_next_invoice_date_spec ⟨2026, 2, 10⟩ .monthly
      ⟨1, true, false, 4, ⟨2026, 1, 2⟩, 31, none, none⟩ (by decide) (by decide)
      (by exact ⟨by decide, by decide⟩)).2.2⟩

/-- Counterexample to C4 as stated: for a disabled schedule the returned
date is never due (`is_due` is false for every date), so
`is_due(next_due_date(d,f,s))` fails. -/
theorem compute_next_invoice_date_counterexample :
    ¬ ((⟨2026, 3, 2⟩ : Date).ord ≤
        (computeNextInvoiceDate ⟨2026, 3, 2⟩ BillingFrequency.weekly
          ⟨1, false, false, 4, ⟨2026, 1, 2⟩, 1, none, none⟩).ord ∧
      shouldInvoiceToday
        (computeNextInvoiceDate ⟨2026, 3, 2⟩ BillingFrequency.weekly
          ⟨1, false, false, 4, ⟨2026, 1, 2⟩, 1, none, none⟩)
        BillingFrequency.weekly ⟨1, false, false, 4, ⟨2026, 1, 2⟩, 1, none, none⟩ = true) := by
  decide

/-! ## Pricing (app/services/pdf_service.py, lines 73–82) -/

/-- `Decimal.quantize(Decimal("0.01"), rounding=ROUND_HALF_UP)`: rounding to
two decimal places, ties away from zero.  Python `Decimal` values are exact
rationals, so the computation lives in ℚ. -/
def quantize2 (q : ℚ) : ℚ :=
  if 0 ≤ q then (⌊q * 100 + 1 / 2⌋ : ℚ) / 100
  else -((⌊-(q * 100) + 1 / 2⌋ : ℚ) / 100)

/-- The pricing computation of `PDFService.generate_invoice_pdf`:
`labor_subtotal = total_hours * rate_per_hour`,
`subtotal = labor_subtotal + extra_fees`,
`hst_amount = (subtotal * hst_rate).quantize(0.01, ROUND_HALF_UP)`,
`total = subtotal + hst_amount`. -/
def priceInvoice (total_hours rate_per_hour extra_fees hst_rate : ℚ) : ℚ × ℚ × ℚ × ℚ :=
  let labor_subtotal := total_hours * rate_per_hour
  let subtotal := labor_subtotal + extra_fees
  let hst_amount := quantize2 (subtotal * hst_rate)
  (labor_subtotal, subtotal, hst_amount, subtotal + hst_amount)

/-- C3: for non-negative inputs, pricing computes `labor_subtotal = hours ×
rate` and `subtotal = labor_subtotal + fees` exactly, rounds `tax_amount =
subtotal × tax_rate` to 2 decimal places with round-half-up (it is the
integer multiple `k/100` with `k = ⌊100·x + 1/2⌋`) before adding, and
returns `total = subtotal + tax_amount` exactly, with no independent
rounding of the total. -/
theorem price_invoice_spec (h r f t : ℚ)
    (hh : 0 ≤ h) (hr : 0 ≤ r) (hf : 0 ≤ f) (ht : 0 ≤ t) :
    (priceInvoice h r f t).1 = h * r ∧
    (priceInvoice h r f t).2.1 = h * r + f ∧
    (∃ k : ℤ, (priceInvoice h r f t).2.2.1 = (k : ℚ) / 100 ∧
      (k : ℚ) ≤ (h * r + f) * t * 100 + 1 / 2 ∧
      (h * r + f) * t * 100 + 1 / 2 < (k : ℚ) + 1) ∧
    (priceInvoice h r f t).2.2.2
      = (priceInvoice h r f t).2.1 + (priceInvoice h r f t).2.2.1 := by
  refine ⟨rfl, rfl, ?_, rfl⟩
  have hq : 0 ≤ (h * r + f) * t :=
    mul_nonneg (add_nonneg (mul_nonneg hh hr) hf) ht
  show ∃ k : ℤ, quantize2 ((h * r + f) * t) = (k : ℚ) / 100 ∧ _
  unfold quantize2
  rw [if_pos hq]
  exact ⟨⌊(h * r + f) * t * 100 + 1 / 2⌋, rfl,
    Int.floor_le _, Int.lt_floor_add_one _⟩

/-- Witness for C3 at hours 1, rate 100, fees 0, tax rate 0.13:
the total equals subtotal + tax exactly. -/
theorem price_invoice_spec_witness :
    (priceInvoice 1 100 0 (13 / 100)).2.2.2
      = (priceInvoice 1 100 0 (13 / 100)).2.1 + (priceInvoice 1 100 0 (13 / 100)).2.2.1 :=
  (price_invoice_spec 1 100 0 (13 / 100)
    (by norm_num) (by norm_num) (by norm_num) (by norm_num)).2.2.2

/-- Counterexample to C7 as stated: with hours 0.5 and rate 0.01 (both
admissible inputs — the schemas only require non-negative decimals) the
returned `labor_subtotal` is 0.005, which is not an integer number of
cents divided by 100. -/
theorem price_cents_counterexample :
    ¬ ∃ n : ℤ, (priceInvoice (1 / 2) (1 / 100) 0 0).1 = (n : ℚ) / 100 := by
  rintro ⟨n, hn⟩
  simp only [priceInvoice] at hn
  have h2 : (n : ℚ) * 2 = 1 := by
    field_simp at hn ⊢
    linarith
  have h3 : n * 2 = 1 := by exact_mod_cast h2
  omega

/-- C7 (amended): the rounded `tax_amount` is always an exact integer
number of cents divided by 100; and whenever `hours × rate` and `fees` are
themselves integer-cent values, so are all four returned monetary values
(`labor_subtotal`, `subtotal`, `tax_amount`, `total`).  The whole
computation is exact rational arithmetic — no floating point. -/
theorem price_cents_spec (h r f t : ℚ) :
    (∃ k : ℤ, (priceInvoice h r f t).2.2.1 = (k : ℚ) / 100) ∧
    ((∃ a : ℤ, h * r = (a : ℚ) / 100) → (∃ b : ℤ, f = (b : ℚ) / 100) →
      (∃ a : ℤ, (priceInvoice h r f t).1 = (a : ℚ) / 100) ∧
      (∃ b : ℤ, (priceInvoice h r f t).2.1 = (b : ℚ) / 100) ∧
      (∃ c : ℤ, (priceInvoice h r f t).2.2.2 = (c : ℚ) / 100)) := by
  have htax : ∃ k : ℤ, quantize2 ((h * r + f) * t) = (k : ℚ) / 100 := by
    unfold quantize2
    split_ifs
    · exact ⟨⌊(h * r + f) * t * 100 + 1 / 2⌋, rfl⟩
    · refine ⟨-⌊-((h * r + f) * t * 100) + 1 / 2⌋, ?_⟩
      push_cast
      ring
  refine ⟨htax, ?_⟩
  rintro ⟨a, ha⟩ ⟨b, hb⟩
  obtain ⟨k, hk⟩ := htax
  refine ⟨⟨a, ha⟩, ⟨a + b, ?_⟩, ⟨a + b + k, ?_⟩⟩
  · show h * r + f = ((a + b : ℤ) : ℚ) / 100
    rw [ha, hb]
    push_cast
    ring
  · show h * r + f + quantize2 ((h * r + f) * t) = ((a + b + k : ℤ) : ℚ) / 100
    rw [hk, ha, hb]
    push_cast
    ring

/-- Witness for C7 (amended) at hours 1, rate 100 (labor 100.00 =
10000/100 cents), fees 0, tax rate 0.13: the total is integer cents. -/
theorem price_cents_spec_witness :
    ∃ c : ℤ, (priceInvoice 1 100 0 (13 / 100)).2.2.2 = (c : ℚ) / 100 :=
  ((price_cents_spec 1 100 0 (13 / 100)).2
    ⟨10000, by norm_num⟩ ⟨0, by norm_num⟩).2.2

/-! ## Invoice numbering (app/core/security.py: generate_invoice_number)
and the invoice engine (app/services/invoice_engine.py) -/

/-- The decimal digit character for `n` (0 ≤ n ≤ 9). -/
def digitChar (n : Nat) : Char := Char.ofNat (48 + n)

/-- Decimal digits of `n`, most significant first; fuel-based recursion
(`fuel ≥ n` suffices). -/
def decChars : Nat → Nat → List Char
  | 0, _ => []
  | fuel + 1, n => if n = 0 then [] else decChars fuel (n / 10) ++ [digitChar (n % 10)]

/-- Python's decimal rendering of a natural number. -/
def natDec (n : Nat) : List Char := if n = 0 then ['0'] else decChars n n

/-- Python format `%0wd`: zero-pad the decimal rendering to width `w`. -/
def padNum (w n : Nat) : List Char :=
  List.replicate (w - (natDec n).length) '0' ++ natDec n

/-- `generate_invoice_number(prefix, date, sequence)`:
`f"{prefix}-{date:%Y%m%d}-{sequence:03d}"`. -/
def generateInvoiceNumber (pfx : String) (d : Date) (sequence : Nat) : String :=
  String.mk (pfx.data ++ '-' ::
    (padNum 4 d.year ++ padNum 2 d.month ++ padNum 2 d.day) ++ '-' :: padNum 3 sequence)

/-- Value of a digit string read back as a decimal number. -/
def decVal (cs : List Char) : Nat := cs.foldl (fun a c => 10 * a + (c.toNat - 48)) 0

theorem digitChar_toNat (d : Nat) (h : d < 10) : (digitChar d).toNat = 48 + d := by
  interval_cases d <;> decide

theorem decVal_aux (cs : List Char) (a : Nat) :
    List.foldl (fun a c => 10 * a + (c.toNat - 48)) a cs
      = a * 10 ^ cs.length + decVal cs := by
  induction cs generalizing a with
  | nil => simp [decVal]
  | cons c cs ih =>
    show List.foldl _ (10 * a + (c.toNat - 48)) cs = _
    rw [ih]
    have h2 : decVal (c :: cs) = (c.toNat - 48) * 10 ^ cs.length + decVal cs := by
      show List.foldl _ (10 * 0 + (c.toNat - 48)) cs = _
      rw [ih]
      ring_nf
    rw [h2, List.length_cons, pow_succ]
    ring

theorem decVal_decChars : ∀ fuel n, n ≤ fuel → decVal (decChars fuel n) = n := by
  intro fuel
  induction fuel with
  | zero => intro n h; interval_cases n; simp [decChars, decVal]
  | succ f ih =>
    intro n h
    unfold decChars
    by_cases h0 : n = 0
    · simp [h0, decVal]
    · rw [if_neg h0]
      unfold decVal
      rw [List.foldl_append]
      have hrec : decVal (decChars f (n / 10)) = n / 10 := ih (n / 10) (by omega)
      unfold decVal at hrec
      rw [hrec]
      show 10 * (n / 10) + ((digitChar (n % 10)).toNat - 48) = n
      rw [digitChar_toNat (n % 10) (by omega)]
      omega

theorem decVal_natDec (n : Nat) : decVal (natDec n) = n := by
  unfold natDec
  by_cases h0 : n = 0
  · simp [h0, decVal]
  · rw [if_neg h0]
    exact decVal_decChars n n (le_refl n)

theorem decVal_padNum (w n : Nat) : decVal (padNum w n) = n := by
  unfold padNum
  generalize w - (natDec n).length = k
  induction k with
  | zero => simpa using decVal_natDec n
  | succ j ih =>
    show decVal ('0' :: (List.replicate j '0' ++ natDec n)) = n
    unfold decVal at ih ⊢
    simpa using ih

theorem padNum_inj (w m n : Nat) (h : padNum w m = padNum w n) : m = n := by
  have := congrArg decVal h
  rwa [decVal_padNum, decVal_padNum] at this

/-- `generate_invoice_number` is injective in the sequence component. -/
theorem generateInvoiceNumber_inj (pfx : String) (d : Date) (s1 s2 : Nat)
    (h : generateInvoiceNumber pfx d s1 = generateInvoiceNumber pfx d s2) : s1 = s2 := by
  unfold generateInvoiceNumber at h
  have hdata := congrArg String.data h
  simp only [String.data] at hdata
  have h1 := List.append_cancel_left hdata
  have h6 : padNum 3 s1 = padNum 3 s2 := by injection h1
  exact padNum_inj 3 s1 s2 h6

/-- `InvoiceStatus` (app/models/models.py). -/
inductive InvoiceStatus where
  | draft
  | generated
  | sent
  | paid
  | overdue
  | cancelled
deriving DecidableEq, Repr

/-- `ExecutionMode` (app/models/models.py). -/
inductive ExecutionMode where
  | quick
  | wizard
  | scheduled
  | generate_all
  | manual
deriving DecidableEq, Repr

/-- `Contract` (app/models/models.py), the fields the engine reads.
`prefixCode` is the `invoice_prefix` column. -/
structure Contract where
  frequency : BillingFrequency
  default_hours : ℚ
  rate_per_hour : ℚ
  hst_rate : ℚ
  extra_fees : ℚ
  payment_terms : String
  prefixCode : String
deriving DecidableEq, Repr

/-- `Customer` (app/models/models.py), the fields the engine reads. -/
structure Customer where
  id : Nat
  name : String
  is_active : Bool
  contract : Option Contract
  schedule : Option ScheduleConfig
deriving DecidableEq, Repr

/-- `Invoice` (app/models/models.py), the fields the engine writes. -/
structure Invoice where
  customer_id : Nat
  invoice_number : String
  invoice_date : Date
  period_start : Date
  period_end : Date
  status : InvoiceStatus
  total_hours : ℚ
  rate_per_hour : ℚ
  labor_subtotal : ℚ
  extra_fees : ℚ
  subtotal : ℚ
  hst_rate : ℚ
  hst_amount : ℚ
  total : ℚ
  generation_mode : ExecutionMode
deriving DecidableEq, Repr

/-- The exceptions `generate_invoice` can raise: its own `ValueError`s and
SQLAlchemy's `MultipleResultsFound`, which `scalar_one_or_none()` raises
when the duplicate query matches more than one row. -/
inductive GenError where
  | noContract (customer_name : String)
  | duplicateInvoice (invoice_number : String)
  | multipleResultsFound
deriving DecidableEq, Repr

def genErrorMsg : GenError → String
  | .noContract n => "Customer " ++ n ++ " has no contract configured"
  | .duplicateInvoice n => "Invoice already exists for this period: " ++ n
  | .multipleResultsFound => "Multiple rows were found when one or none was required"

/-- `InvoiceEngine.check_duplicate_invoice`: the duplicate query (same
customer, identical period pair, status ≠ cancelled) finished by
`scalar_one_or_none()` — `none` when no row matches, the row when exactly
one matches, and the `MultipleResultsFound` exception when several do. -/
def checkDuplicateInvoice (invoices : List Invoice) (cid : Nat) (ps pe : Date) :
    Except GenError (Option Invoice) :=
  match invoices.filter (fun inv => decide (inv.customer_id = cid ∧ inv.period_start = ps ∧
      inv.period_end = pe ∧ inv.status ≠ InvoiceStatus.cancelled)) with
  | [] => .ok none
  | [inv] => .ok (some inv)
  | _ => .error .multipleResultsFound

/-- `InvoiceEngine.get_next_invoice_sequence`:
`1 + count(invoices of this customer dated invoice_date)`. -/
def getNextInvoiceSequence (invoices : List Invoice) (cid : Nat) (d : Date) : Nat :=
  (invoices.filter (fun inv => decide (inv.customer_id = cid ∧ inv.invoice_date = d))).length
    + 1

/-- The optional overrides of `generate_invoice`. -/
structure GenOverrides where
  period_start : Option Date
  period_end : Option Date
  rate_per_hour : Option ℚ
  hst_rate : Option ℚ
  extra_fees : Option ℚ
  allow_duplicate : Bool
deriving DecidableEq, Repr

def noOverrides : GenOverrides := ⟨none, none, none, none, none, false⟩

/-- Period resolution of `generate_invoice`: if either bound is missing,
both are computed from `compute_billing_period`. -/
def resolvedPeriod (ov : GenOverrides) (run_date : Date) (frequency : BillingFrequency) :
    Date × Date :=
  match ov.period_start, ov.period_end with
  | some ps, some pe => (ps, pe)
  | _, _ => computeBillingPeriod run_date frequency

/-- The `Invoice` row `generate_invoice` builds and persists on its
non-error path: numbered from the same-day sequence count, priced by the
PDF service's computation, status `generated`. -/
def builtInvoice (invoices : List Invoice) (c : Customer) (run_date : Date)
    (total_hours : ℚ) (mode : ExecutionMode) (ov : GenOverrides)
    (contract : Contract) : Invoice :=
  let rate := ov.rate_per_hour.getD contract.rate_per_hour
  let hst := ov.hst_rate.getD contract.hst_rate
  let fees := ov.extra_fees.getD contract.extra_fees
  let period := resolvedPeriod ov run_date contract.frequency
  let sequence := getNextInvoiceSequence invoices c.id run_date
  let number := generateInvoiceNumber contract.prefixCode run_date sequence
  let p := priceInvoice total_hours rate fees hst
  { customer_id := c.id, invoice_number := number, invoice_date := run_date,
    period_start := period.1, period_end := period.2,
    status := .generated, total_hours := total_hours, rate_per_hour := rate,
    labor_subtotal := p.1, extra_fees := fees, subtotal := p.2.1,
    hst_rate := hst, hst_amount := p.2.2.1, total := p.2.2.2,
    generation_mode := mode }

/-- `InvoiceEngine.generate_invoice`: resolve defaults, resolve the period,
duplicate-check (unless allowed), number, price, and persist the `Invoice`
row with status `generated`.  PDF byte rendering is I/O and not modelled;
the totals the PDF service returns are `priceInvoice`. -/
def generateInvoice (invoices : List Invoice) (c : Customer) (run_date : Date)
    (total_hours : ℚ) (mode : ExecutionMode) (ov : GenOverrides) :
    Except GenError Invoice :=
  match c.contract with
  | none => .error (.noContract c.name)
  | some contract =>
    let period := resolvedPeriod ov run_date contract.frequency
    match (if ov.allow_duplicate then Except.ok none
           else checkDuplicateInvoice invoices c.id period.1 period.2) with
    | .error e => .error e
    | .ok (some existing) => .error (.duplicateInvoice existing.invoice_number)
    | .ok none => .ok (builtInvoice invoices c run_date total_hours mode ov contract)

/-- A prior invoice that conflicts for this customer and period
(the duplicate guard's predicate). -/
def ConflictsWith (cid : Nat) (ps pe : Date) (inv : Invoice) : Prop :=
  inv.customer_id = cid ∧ inv.period_start = ps ∧ inv.period_end = pe ∧
    inv.status ≠ InvoiceStatus.cancelled

theorem generateInvoice_eq (invoices : List Invoice) (c : Customer) (run_date : Date)
    (total_hours : ℚ) (mode : ExecutionMode) (ov : GenOverrides) (ct : Contract)
    (hc : c.contract = some ct) :
    generateInvoice invoices c run_date total_hours mode ov
      = match (if ov.allow_duplicate then Except.ok none
               else checkDuplicateInvoice invoices c.id
                 (resolvedPeriod ov run_date ct.frequency).1
                 (resolvedPeriod ov run_date ct.frequency).2) with
        | .error e => .error e
        | .ok (some existing) => .error (.duplicateInvoice existing.invoice_number)
        | .ok none => .ok (builtInvoice invoices c run_date total_hours mode ov ct) := by
  unfold generateInvoice
  rw [hc]

/-- C5 (amended): without `allow_duplicate`, invoice generation fails
exactly when a prior non-cancelled invoice of the same customer has the
identical (period_start, period_end) pair: with exactly one such invoice
the failure is the duplicate-invoice error naming its number, while with
several on file (a state only reachable by having bypassed the guard with
`allow_duplicate`) the query itself raises `MultipleResultsFound`; a
duplicate error always names a conflicting invoice's number, partial
overlap does not trigger the guard (only identical pairs do), cancelled
invoices do not conflict, and `allow_duplicate = true` bypasses the check
entirely (generation succeeds). -/
theorem generate_invoice_duplicate_spec (invoices : List Invoice) (c : Customer)
    (run_date : Date) (total_hours : ℚ) (mode : ExecutionMode) (ov : GenOverrides)
    (ct : Contract) (hc : c.contract = some ct) :
    ((∃ e, generateInvoice invoices c run_date total_hours mode
        {ov with allow_duplicate := false} = .error e) ↔
      ∃ inv ∈ invoices,
        ConflictsWith c.id (resolvedPeriod ov run_date ct.frequency).1
          (resolvedPeriod ov run_date ct.frequency).2 inv) ∧
    (∀ inv0, invoices.filter (fun inv => decide (inv.customer_id = c.id ∧
          inv.period_start = (resolvedPeriod ov run_date ct.frequency).1 ∧
          inv.period_end = (resolvedPeriod ov run_date ct.frequency).2 ∧
          inv.status ≠ InvoiceStatus.cancelled)) = [inv0] →
      generateInvoice invoices c run_date total_hours mode
        {ov with allow_duplicate := false} = .error (.duplicateInvoice
          inv0.invoice_number)) ∧
    (∀ n, generateInvoice invoices c run_date total_hours mode
        {ov with allow_duplicate := false} = .error (.duplicateInvoice n) →
      ∃ inv ∈ invoices,
        ConflictsWith c.id (resolvedPeriod ov run_date ct.frequency).1
          (resolvedPeriod ov run_date ct.frequency).2 inv ∧ inv.invoice_number = n) ∧
    (2 ≤ (invoices.filter (fun inv => decide (inv.customer_id = c.id ∧
          inv.period_start = (resolvedPeriod ov run_date ct.frequency).1 ∧
          inv.period_end = (resolvedPeriod ov run_date ct.frequency).2 ∧
          inv.status ≠ InvoiceStatus.cancelled))).length →
      generateInvoice invoices c run_date total_hours mode
        {ov with allow_duplicate := false} = .error .multipleResultsFound) ∧
    (∃ inv, generateInvoice invoices c run_date total_hours mode
        {ov with allow_duplicate := true} = .ok inv) := by
  have hgenF := generateInvoice_eq invoices c run_date total_hours mode
    {ov with allow_duplicate := false} ct hc
  have hgenT := generateInvoice_eq invoices c run_date total_hours mode
    {ov with allow_duplicate := true} ct hc
  have hperF : resolvedPeriod {ov with allow_duplicate := false} run_date ct.frequency
      = resolvedPeriod ov run_date ct.frequency := rfl
  have hperT : resolvedPeriod {ov with allow_duplicate := true} run_date ct.frequency
      = resolvedPeriod ov run_date ct.frequency := rfl
  rw [hperF] at hgenF
  rw [hperT] at hgenT
  have hifF : (if ({ov with allow_duplicate := false} : GenOverrides).allow_duplicate
      then (Except.ok none : Except GenError (Option Invoice))
      else checkDuplicateInvoice invoices c.id
        (resolvedPeriod ov run_date ct.frequency).1
        (resolvedPeriod ov run_date ct.frequency).2)
      = checkDuplicateInvoice invoices c.id
        (resolvedPeriod ov run_date ct.frequency).1
        (resolvedPeriod ov run_date ct.frequency).2 := rfl
  have hifT : (if ({ov with allow_duplicate := true} : GenOverrides).allow_duplicate
      then (Except.ok none : Except GenError (Option Invoice))
      else checkDuplicateInvoice invoices c.id
        (resolvedPeriod ov run_date ct.frequency).1
        (resolvedPeriod ov run_date ct.frequency).2)
      = Except.ok none := rfl
  rw [hifF] at hgenF
  rw [hifT] at hgenT
  rcases hfil : invoices.filter (fun inv => decide (inv.customer_id = c.id ∧
      inv.period_start = (resolvedPeriod ov run_date ct.frequency).1 ∧
      inv.period_end = (resolvedPeriod ov run_date ct.frequency).2 ∧
      inv.status ≠ InvoiceStatus.cancelled)) with _ | ⟨inv0, rest⟩
  · -- no matching row: the check returns none and generation succeeds
    have hchk : checkDuplicateInvoice invoices c.id
        (resolvedPeriod ov run_date ct.frequency).1
        (resolvedPeriod ov run_date ct.frequency).2 = .ok none := by
      unfold checkDuplicateInvoice
      rw [hfil]
    rw [hchk] at hgenF
    refine ⟨⟨?_, ?_⟩, ?_, ?_, ?_, ?_⟩
    · rintro ⟨e, he⟩
      rw [hgenF] at he
      cases he
    · rintro ⟨inv, hmem, hconf⟩
      exfalso
      have hdec : decide (inv.customer_id = c.id ∧
          inv.period_start = (resolvedPeriod ov run_date ct.frequency).1 ∧
          inv.period_end = (resolvedPeriod ov run_date ct.frequency).2 ∧
          inv.status ≠ InvoiceStatus.cancelled) = true := decide_eq_true hconf
      have hin : inv ∈ invoices.filter (fun inv => decide (inv.customer_id = c.id ∧
          inv.period_start = (resolvedPeriod ov run_date ct.frequency).1 ∧
          inv.period_end = (resolvedPeriod ov run_date ct.frequency).2 ∧
          inv.status ≠ InvoiceStatus.cancelled)) :=
        List.mem_filter.mpr ⟨hmem, hdec⟩
      rw [hfil] at hin
      exact absurd hin (List.not_mem_nil _)
    · intro inv0 h0
      rw [hfil] at h0
      cases h0
    · intro n hn
      rw [hgenF] at hn
      cases hn
    · intro hlen
      rw [hfil] at hlen
      simp at hlen
    · exact ⟨builtInvoice invoices c run_date total_hours mode
        {ov with allow_duplicate := true} ct, by rw [hgenT]⟩
  rcases rest with _ | ⟨inv1, rest2⟩
  · -- exactly one matching row: the duplicate error names it
    have hchk : checkDuplicateInvoice invoices c.id
        (resolvedPeriod ov run_date ct.frequency).1
        (resolvedPeriod ov run_date ct.frequency).2 = .ok (some inv0) := by
      unfold checkDuplicateInvoice
      rw [hfil]
    rw [hchk] at hgenF
    have hmem0 : inv0 ∈ invoices ∧ ConflictsWith c.id
        (resolvedPeriod ov run_date ct.frequency).1
        (resolvedPeriod ov run_date ct.frequency).2 inv0 := by
      have hin : inv0 ∈ invoices.filter (fun inv => decide (inv.customer_id = c.id ∧
          inv.period_start = (resolvedPeriod ov run_date ct.frequency).1 ∧
          inv.period_end = (resolvedPeriod ov run_date ct.frequency).2 ∧
          inv.status ≠ InvoiceStatus.cancelled)) := by
        rw [hfil]
        exact List.mem_singleton_self _
      have hp := List.mem_filter.mp hin
      refine ⟨hp.1, ?_⟩
      unfold ConflictsWith
      exact of_decide_eq_true hp.2
    refine ⟨⟨?_, ?_⟩, ?_, ?_, ?_, ?_⟩
    · intro _
      exact ⟨inv0, hmem0.1, hmem0.2⟩
    · intro _
      exact ⟨.duplicateInvoice inv0.invoice_number, by rw [hgenF]⟩
    · intro invx hx
      rw [hfil] at hx
      have : inv0 = invx := by injection hx
      rw [hgenF, this]
    · intro n hn
      rw [hgenF] at hn
      have hne : GenError.duplicateInvoice inv0.invoice_number
          = GenError.duplicateInvoice n := by injection hn
      have : inv0.invoice_number = n := by injection hne
      exact ⟨inv0, hmem0.1, hmem0.2, this⟩
    · intro hlen
      rw [hfil] at hlen
      simp at hlen
    · exact ⟨builtInvoice invoices c run_date total_hours mode
        {ov with allow_duplicate := true} ct, by rw [hgenT]⟩
  · -- several matching rows: scalar_one_or_none raises MultipleResultsFound
    have hchk : checkDuplicateInvoice invoices c.id
        (resolvedPeriod ov run_date ct.frequency).1
        (resolvedPeriod ov run_date ct.frequency).2 = .error .multipleResultsFound := by
      unfold checkDuplicateInvoice
      rw [hfil]
    rw [hchk] at hgenF
    have hmem0 : inv0 ∈ invoices ∧ ConflictsWith c.id
        (resolvedPeriod ov run_date ct.frequency).1
        (resolvedPeriod ov run_date ct.frequency).2 inv0 := by
      have hin : inv0 ∈ invoices.filter (fun inv => decide (inv.customer_id = c.id ∧
          inv.period_start = (resolvedPeriod ov run_date ct.frequency).1 ∧
          inv.period_end = (resolvedPeriod ov run_date ct.frequency).2 ∧
          inv.status ≠ InvoiceStatus.cancelled)) := by
        rw [hfil]
        exact List.mem_cons_self _ _
      have hp := List.mem_filter.mp hin
      refine ⟨hp.1, ?_⟩
      unfold ConflictsWith
      exact of_decide_eq_true hp.2
    refine ⟨⟨?_, ?_⟩, ?_, ?_, ?_, ?_⟩
    · intro _
      exact ⟨inv0, hmem0.1, hmem0.2⟩
    · intro _
      exact ⟨.multipleResultsFound, by rw [hgenF]⟩
    · intro invx hx
      rw [hfil] at hx
      cases hx
    · intro n hn
      rw [hgenF] at hn
      exfalso
      have : GenError.multipleResultsFound = GenError.duplicateInvoice n := by
        injection hn
      cases this
    · intro _
      rw [hgenF]
    · exact ⟨builtInvoice invoices c run_date total_hours mode
        {ov with allow_duplicate := true} ct, by rw [hgenT]⟩

/-- A fixed customer used to instantiate the engine theorems. -/
def ctA : Contract := ⟨.monthly, 8, 50, 13 / 100, 0, "Monthly", "ACME"⟩

def schedA : ScheduleConfig := ⟨7, true, true, 4, ⟨2026, 1, 2⟩, 1, none, none⟩

def custA : Customer := ⟨7, "Acme Corp", true, some ctA, some schedA⟩

/-- An invoice row with the identical period a monthly run on 2026-03-01
computes; two copies of it model the state left by generating twice with
`allow_duplicate`. -/
def invDup : Invoice :=
  ⟨7, "ACME-20260301-001", ⟨2026, 3, 1⟩, ⟨2026, 2, 1⟩, ⟨2026, 2, 28⟩, .generated,
    8, 50, 400, 0, 400, 13 / 100, 52, 452, .quick⟩

/-- Counterexample to C5 as stated: with two identical-period non-cancelled
invoices on file for the customer, a generation without `allow_duplicate`
fails with the database driver's `MultipleResultsFound`, not with a
duplicate-invoice error naming a conflicting invoice number. -/
theorem generate_invoice_duplicate_counterexample :
    invDup ∈ [invDup, invDup] ∧
    ConflictsWith custA.id
      (resolvedPeriod noOverrides ⟨2026, 3, 1⟩ ctA.frequency).1
      (resolvedPeriod noOverrides ⟨2026, 3, 1⟩ ctA.frequency).2 invDup ∧
    generateInvoice [invDup, invDup] custA ⟨2026, 3, 1⟩ 8 .quick noOverrides
      = .error .multipleResultsFound ∧
    (∀ n, generateInvoice [invDup, invDup] custA ⟨2026, 3, 1⟩ 8 .quick noOverrides
      ≠ .error (.duplicateInvoice n)) := by
  refine ⟨List.mem_cons_self _ _, ⟨rfl, rfl, rfl, nofun⟩, rfl, ?_⟩
  intro n hn
  rw [show generateInvoice [invDup, invDup] custA ⟨2026, 3, 1⟩ 8 .quick noOverrides
      = .error .multipleResultsFound from rfl] at hn
  have : GenError.multipleResultsFound = GenError.duplicateInvoice n := by injection hn
  cases this

/-- Witness for C5 (amended): on an empty store nothing conflicts and
generation succeeds; regenerating the identical period is rejected with a
duplicate error naming the first invoice's number; and with two identical
conflicting invoices on file the failure is `MultipleResultsFound`. -/
theorem generate_invoice_duplicate_spec_witness :
    (∀ e, generateInvoice [] custA ⟨2026, 3, 1⟩ 8 .quick noOverrides
      ≠ Except.error e) ∧
    (∃ inv1, generateInvoice [] custA ⟨2026, 3, 1⟩ 8 .quick noOverrides = .ok inv1 ∧
      generateInvoice [inv1] custA ⟨2026, 3, 1⟩ 8 .quick noOverrides
        = .error (.duplicateInvoice inv1.invoice_number)) ∧
    generateInvoice [invDup, invDup] custA ⟨2026, 3, 1⟩ 8 .quick noOverrides
      = .error .multipleResultsFound := by
  have h1 := generate_invoice_duplicate_spec [] custA ⟨2026, 3, 1⟩ 8 .quick noOverrides
    ctA rfl
  refine ⟨?_, ?_, ?_⟩
  · intro e he
    obtain ⟨inv, hmem, -⟩ := h1.1.mp ⟨e, he⟩
    exact absurd hmem (List.not_mem_nil _)
  · obtain ⟨inv1, hinv1⟩ : ∃ i, generateInvoice [] custA ⟨2026, 3, 1⟩ 8 .quick noOverrides
        = .ok i := ⟨_, rfl⟩
    refine ⟨inv1, hinv1, ?_⟩
    have h2 := generate_invoice_duplicate_spec [inv1] custA ⟨2026, 3, 1⟩ 8 .quick
      noOverrides ctA rfl
    apply h2.2.1 inv1
    have hob : Except.ok (builtInvoice [] custA ⟨2026, 3, 1⟩ 8 .quick noOverrides ctA)
        = Except.ok inv1 := hinv1
    have hb : builtInvoice [] custA ⟨2026, 3, 1⟩ 8 .quick noOverrides ctA = inv1 := by
      injection hob
    simp [List.filter_cons, List.filter_nil]
    rw [← hb]
    exact ⟨rfl, rfl, rfl, nofun⟩
  · have h3 := generate_invoice_duplicate_spec [invDup, invDup] custA ⟨2026, 3, 1⟩ 8
      .quick noOverrides ctA rfl
    apply h3.2.2.2.1
    rw [show ([invDup, invDup].filter (fun inv => decide (inv.customer_id = custA.id ∧
        inv.period_start = (resolvedPeriod noOverrides ⟨2026, 3, 1⟩ ctA.frequency).1 ∧
        inv.period_end = (resolvedPeriod noOverrides ⟨2026, 3, 1⟩ ctA.frequency).2 ∧
        inv.status ≠ InvoiceStatus.cancelled))) = [invDup, invDup] from rfl]
    norm_num

theorem getNextInvoiceSequence_append_one (invoices : List Invoice) (inv : Invoice)
    (cid : Nat) (d : Date) (h1 : inv.customer_id = cid) (h2 : inv.invoice_date = d) :
    getNextInvoiceSequence (invoices ++ [inv]) cid d
      = getNextInvoiceSequence invoices cid d + 1 := by
  unfold getNextInvoiceSequence
  rw [List.filter_append]
  simp [h1, h2]

/-- C9: the assigned invoice number is `PREFIX-YYYYMMDD-NNN` built by
`generate_invoice_number` from the contract's prefix, the run date, and
sequence `1 + count(prior invoices of this customer dated run_date)`
(zero-padded to 3 digits); a second invoice issued for the same customer
and date gets the next sequence, and the two numbers are distinct. -/
theorem invoice_number_spec (invoices : List Invoice) (c : Customer) (run_date : Date)
    (hours1 hours2 : ℚ) (m1 m2 : ExecutionMode) (ov1 ov2 : GenOverrides)
    (ct : Contract) (hc : c.contract = some ct) (inv1 inv2 : Invoice)
    (h1 : generateInvoice invoices c run_date hours1 m1 ov1 = .ok inv1)
    (h2 : generateInvoice (invoices ++ [inv1]) c run_date hours2 m2 ov2 = .ok inv2) :
    inv1.invoice_number = generateInvoiceNumber ct.prefixCode run_date
      ((invoices.filter (fun i => decide (i.customer_id = c.id ∧
        i.invoice_date = run_date))).length + 1) ∧
    inv2.invoice_number = generateInvoiceNumber ct.prefixCode run_date
      ((invoices.filter (fun i => decide (i.customer_id = c.id ∧
        i.invoice_date = run_date))).length + 2) ∧
    inv2.invoice_number ≠ inv1.invoice_number := by
  have hg1 := generateInvoice_eq invoices c run_date hours1 m1 ov1 ct hc
  have hg2 := generateInvoice_eq (invoices ++ [inv1]) c run_date hours2 m2 ov2 ct hc
  rw [hg1] at h1
  rw [hg2] at h2
  have hb1 : builtInvoice invoices c run_date hours1 m1 ov1 ct = inv1 := by
    rcases hd1 : (if ov1.allow_duplicate then Except.ok none
        else checkDuplicateInvoice invoices c.id
          (resolvedPeriod ov1 run_date ct.frequency).1
          (resolvedPeriod ov1 run_date ct.frequency).2) with e | o
    · rw [hd1] at h1
      cases h1
    · rcases o with _ | ex
      · rw [hd1] at h1
        injection h1
      · rw [hd1] at h1
        cases h1
  have hb2 : builtInvoice (invoices ++ [inv1]) c run_date hours2 m2 ov2 ct = inv2 := by
    rcases hd2 : (if ov2.allow_duplicate then Except.ok none
        else checkDuplicateInvoice (invoices ++ [inv1]) c.id
          (resolvedPeriod ov2 run_date ct.frequency).1
          (resolvedPeriod ov2 run_date ct.frequency).2) with e | o
    · rw [hd2] at h2
      cases h2
    · rcases o with _ | ex
      · rw [hd2] at h2
        injection h2
      · rw [hd2] at h2
        cases h2
  have hnum1 : inv1.invoice_number = generateInvoiceNumber ct.prefixCode run_date
      (getNextInvoiceSequence invoices c.id run_date) := by
    rw [← hb1]
    rfl
  have hcid : inv1.customer_id = c.id := by rw [← hb1]; rfl
  have hdat : inv1.invoice_date = run_date := by rw [← hb1]; rfl
  have hseq := getNextInvoiceSequence_append_one invoices inv1 c.id run_date hcid hdat
  have hnum2 : inv2.invoice_number = generateInvoiceNumber ct.prefixCode run_date
      (getNextInvoiceSequence invoices c.id run_date + 1) := by
    rw [← hb2]
    show generateInvoiceNumber ct.prefixCode run_date
        (getNextInvoiceSequence (invoices ++ [inv1]) c.id run_date) = _
    rw [hseq]
  have hs : getNextInvoiceSequence invoices c.id run_date
      = (invoices.filter (fun i => decide (i.customer_id = c.id ∧
          i.invoice_date = run_date))).length + 1 := rfl
  refine ⟨by rw [hnum1, hs], by rw [hnum2, hs], ?_⟩
  intro heq
  rw [hnum1, hnum2] at heq
  have := generateInvoiceNumber_inj ct.prefixCode run_date _ _ heq
  omega

/-- Witness for C9: two successive generations for the same customer and
date (the second with `allow_duplicate`) produce distinct invoice
numbers. -/
theorem invoice_number_spec_witness :
    ∃ inv1 inv2 : Invoice,
      generateInvoice [] custA ⟨2026, 3, 1⟩ 8 .quick noOverrides = .ok inv1 ∧
      generateInvoice [inv1] custA ⟨2026, 3, 1⟩ 8 .wizard
        ⟨none, none, none, none, none, true⟩ = .ok inv2 ∧
      inv2.invoice_number ≠ inv1.invoice_number := by
  obtain ⟨inv1, h1⟩ : ∃ i, generateInvoice [] custA ⟨2026, 3, 1⟩ 8 .quick noOverrides
      = .ok i := ⟨_, rfl⟩
  obtain ⟨inv2, h2⟩ : ∃ i, generateInvoice [inv1] custA ⟨2026, 3, 1⟩ 8 .wizard
      ⟨none, none, none, none, none, true⟩ = .ok i := ⟨_, rfl⟩
  exact ⟨inv1, inv2, h1, h2,
    (invoice_number_spec [] custA ⟨2026, 3, 1⟩ 8 8 .quick .wizard noOverrides
      ⟨none, none, none, none, none, true⟩ ctA rfl inv1 inv2 h1 h2).2.2⟩

/-! ## Generation modes (run_quick_mode, run_wizard_mode, run_scheduled,
run_manual_date_override).  Email delivery is a blocking external call that
either succeeds or raises; it is modelled by an oracle `emailOk : customer
id → Bool`.  Each mode's `ExecutionLog` counters and failure entries are
collected in a `RunSummary`. -/

/-- One entry of a run's `failures` list. -/
structure Failure where
  customer_id : Nat
  customer_name : String
  error : String
deriving DecidableEq, Repr

/-- The text of an email-failure entry (Python: `f"Email failed: {e}"`;
the exception text is not modelled). -/
def emailFailedMsg : String := "Email failed"

/-- The `ExecutionLog` counters and run payload of one orchestration run. -/
structure RunSummary where
  customers_loaded : Nat
  schedule_matches : Nat
  pdfs_generated : Nat
  emails_sent : Nat
  failures_count : Nat
  failures : List Failure
  error_trace : Option String
deriving DecidableEq, Repr

/-- `QuickModeRequest` (app/schemas/schemas.py). -/
structure QuickModeRequest where
  customer_id : Nat
  run_date : Date
  total_hours : ℚ
  send_email : Bool
deriving DecidableEq

/-- `WizardModeRequest` (app/schemas/schemas.py). -/
structure WizardModeRequest where
  customer_id : Nat
  invoice_date : Date
  period_start : Date
  period_end : Date
  total_hours : ℚ
  rate_per_hour : ℚ
  hst_rate : ℚ
  extra_fees : ℚ
  send_email : Bool
  allow_duplicate : Bool
deriving DecidableEq

/-- `ManualDateOverrideRequest` (app/schemas/schemas.py). -/
structure ManualDateOverrideRequest where
  customer_id : Nat
  invoice_date : Date
  period_start : Date
  period_end : Date
  send_email : Bool
deriving DecidableEq

/-- `ScheduledRunRequest` (app/schemas/schemas.py). -/
structure ScheduledRunRequest where
  run_date : Date
  ignore_schedule : Bool
  send_email : Bool
  customer_ids : Option (List Nat)
deriving DecidableEq

/-- The single-customer lookup of the single-customer modes
(`WHERE id = ? AND is_active`). -/
def findActiveCustomer (customers : List Customer) (cid : Nat) : Option Customer :=
  customers.find? (fun c => decide (c.id = cid) && c.is_active)

/-- `InvoiceEngine.run_quick_mode`: load the customer, generate with
contract defaults, optionally send email.  A run-level error (customer not
found, generation failure) sets `error_trace` and `failures = 1`; an email
failure appends a failure entry, sets `failures = 1`, and leaves the
persisted invoice in place with status `generated`. -/
def runQuickMode (customers : List Customer) (invoices : List Invoice)
    (emailOk : Nat → Bool) (req : QuickModeRequest) : RunSummary × List Invoice :=
  match findActiveCustomer customers req.customer_id with
  | none => (⟨0, 0, 0, 0, 1, [], some ("Customer not found")⟩, invoices)
  | some c =>
    match generateInvoice invoices c req.run_date req.total_hours .quick noOverrides with
    | .error e => (⟨1, 1, 0, 0, 1, [], some (genErrorMsg e)⟩, invoices)
    | .ok inv =>
      if req.send_email then
        if emailOk c.id then
          (⟨1, 1, 1, 1, 0, [], none⟩, invoices ++ [{inv with status := .sent}])
        else
          (⟨1, 1, 1, 0, 1, [⟨c.id, c.name, emailFailedMsg⟩], none⟩, invoices ++ [inv])
      else (⟨1, 1, 1, 0, 0, [], none⟩, invoices ++ [inv])

/-- The overrides `run_wizard_mode` passes to `generate_invoice`. -/
def wizardOverrides (req : WizardModeRequest) : GenOverrides :=
  ⟨some req.period_start, some req.period_end, some req.rate_per_hour,
    some req.hst_rate, some req.extra_fees, req.allow_duplicate⟩

/-- `InvoiceEngine.run_wizard_mode`: like quick mode but with every pricing
field and the period explicitly overridden and `allow_duplicate`
supported. -/
def runWizardMode (customers : List Customer) (invoices : List Invoice)
    (emailOk : Nat → Bool) (req : WizardModeRequest) : RunSummary × List Invoice :=
  match findActiveCustomer customers req.customer_id with
  | none => (⟨0, 0, 0, 0, 1, [], some ("Customer not found")⟩, invoices)
  | some c =>
    match generateInvoice invoices c req.invoice_date req.total_hours .wizard
        (wizardOverrides req) with
    | .error e => (⟨1, 1, 0, 0, 1, [], some (genErrorMsg e)⟩, invoices)
    | .ok inv =>
      if req.send_email then
        if emailOk c.id then
          (⟨1, 1, 1, 1, 0, [], none⟩, invoices ++ [{inv with status := .sent}])
        else
          (⟨1, 1, 1, 0, 1, [⟨c.id, c.name, emailFailedMsg⟩], none⟩, invoices ++ [inv])
      else (⟨1, 1, 1, 0, 0, [], none⟩, invoices ++ [inv])

/-- `InvoiceEngine.run_manual_date_override`: explicit period bounds, hours
from the contract default (a missing contract aborts the run before
generation, like the `AttributeError` the Python code would raise). -/
def runManualMode (customers : List Customer) (invoices : List Invoice)
    (emailOk : Nat → Bool) (req : ManualDateOverrideRequest) :
    RunSummary × List Invoice :=
  match findActiveCustomer customers req.customer_id with
  | none => (⟨0, 0, 0, 0, 1, [], some ("Customer not found")⟩, invoices)
  | some c =>
    match c.contract with
    | none => (⟨1, 1, 0, 0, 1, [], some ("no contract")⟩, invoices)
    | some contract =>
      match generateInvoice invoices c req.invoice_date contract.default_hours .manual
          ⟨some req.period_start, some req.period_end, none, none, none, false⟩ with
      | .error e => (⟨1, 1, 0, 0, 1, [], some (genErrorMsg e)⟩, invoices)
      | .ok inv =>
        if req.send_email then
          if emailOk c.id then
            (⟨1, 1, 1, 1, 0, [], none⟩, invoices ++ [{inv with status := .sent}])
          else
            (⟨1, 1, 1, 0, 1, [⟨c.id, c.name, emailFailedMsg⟩], none⟩, invoices ++ [inv])
        else (⟨1, 1, 1, 0, 0, [], none⟩, invoices ++ [inv])

/-- The accumulating state of the scheduled batch loop.
`emails_attempted` records every customer the loop hands to the email
service (instrumentation for stating the opt-in property; the source calls
`email_service.send_invoice_email` exactly there). -/
structure BatchAcc where
  invoices : List Invoice
  schedule_matches : Nat
  pdfs_generated : Nat
  emails_sent : Nat
  failures_count : Nat
  failures : List Failure
  emails_attempted : List Customer
deriving DecidableEq

/-- The customer query of `run_scheduled`: active customers, optionally
filtered to an explicit id set.  Python's `if request.customer_ids:` treats
both `None` and an empty list as "no filter". -/
def selectCustomers (customers : List Customer) (req : ScheduledRunRequest) :
    List Customer :=
  customers.filter (fun c => c.is_active &&
    match req.customer_ids with
    | none => true
    | some ids => if ids.isEmpty then true else ids.contains c.id)

/-- The schedule cursor advance of `run_scheduled`: `last_run_date :=
run_date`, then `next_run_date := compute_next_invoice_date(run_date + 1)`
on the already-updated schedule. -/
def cursorUpdate (run_date : Date) (frequency : BillingFrequency)
    (s : ScheduleConfig) : ScheduleConfig :=
  let s1 := {s with last_run_date := some run_date}
  {s1 with next_run_date := some (computeNextInvoiceDate (nextDay run_date) frequency s1)}

/-- The per-customer body of `run_scheduled`'s loop: skip when contract or
schedule is missing or (without `ignore_schedule`) the schedule is not due;
otherwise count the match, generate, and on success count the PDF, send
email if requested and opted in (a failed send appends a failure entry but
does not touch `failures_count`), and advance the schedule cursor. -/
def stepCustomer (req : ScheduledRunRequest) (emailOk : Nat → Bool)
    (mode : ExecutionMode) (acc : BatchAcc) (c : Customer) : BatchAcc × Customer :=
  match c.contract with
  | none => (acc, c)
  | some contract =>
    match c.schedule with
    | none => (acc, c)
    | some schedule =>
      if !req.ignore_schedule && !shouldInvoiceToday req.run_date contract.frequency schedule
      then (acc, c)
      else
        let acc1 := {acc with schedule_matches := acc.schedule_matches + 1}
        match generateInvoice acc1.invoices c req.run_date contract.default_hours mode
            noOverrides with
        | .error e =>
          ({acc1 with failures := acc1.failures ++ [⟨c.id, c.name, genErrorMsg e⟩], failures_count := acc1.failures_count + 1}, c)
        | .ok inv =>
          let acc2 := {acc1 with pdfs_generated := acc1.pdfs_generated + 1}
          let c' := {c with schedule := some (cursorUpdate req.run_date contract.frequency
            schedule)}
          if req.send_email && (req.ignore_schedule || schedule.auto_send_email) then
            let acc3 := {acc2 with emails_attempted := acc2.emails_attempted ++ [c]}
            if emailOk c.id then
              ({acc3 with invoices := acc3.invoices ++ [{inv with status := .sent}], emails_sent := acc3.emails_sent + 1}, c')
            else
              ({acc3 with invoices := acc3.invoices ++ [inv], failures := acc3.failures ++ [⟨c.id, c.name, emailFailedMsg⟩]}, c')
          else ({acc2 with invoices := acc2.invoices ++ [inv]}, c')

/-- The customer loop of `run_scheduled`, threading the accumulator and
collecting the (possibly cursor-updated) customers in order. -/
def processCustomers (req : ScheduledRunRequest) (emailOk : Nat → Bool)
    (mode : ExecutionMode) : BatchAcc → List Customer → BatchAcc × List Customer
  | acc, [] => (acc, [])
  | acc, c :: cs =>
    let r1 := stepCustomer req emailOk mode acc c
    let r2 := processCustomers req emailOk mode r1.1 cs
    (r2.1, r1.2 :: r2.2)

/-- `InvoiceEngine.run_scheduled`: select active customers, loop, and
report.  Returns (summary, final invoice store, updated customers, the
customers an email send was attempted for). -/
def runScheduled (customers : List Customer) (invoices : List Invoice)
    (emailOk : Nat → Bool) (req : ScheduledRunRequest) :
    RunSummary × List Invoice × List Customer × List Customer :=
  let mode := if req.ignore_schedule then ExecutionMode.generate_all
              else ExecutionMode.scheduled
  let selected := selectCustomers customers req
  let r := processCustomers req emailOk mode ⟨invoices, 0, 0, 0, 0, [], []⟩ selected
  (⟨selected.length, r.1.schedule_matches, r.1.pdfs_generated, r.1.emails_sent,
      r.1.failures_count, r.1.failures, none⟩,
    r.1.invoices, r.2, r.1.emails_attempted)

theorem generateInvoice_ok_fields (invoices : List Invoice) (c : Customer)
    (run_date : Date) (hours : ℚ) (mode : ExecutionMode) (ov : GenOverrides)
    (inv : Invoice)
    (h : generateInvoice invoices c run_date hours mode ov = .ok inv) :
    inv.status = .generated ∧ inv.customer_id = c.id ∧ inv.invoice_date = run_date := by
  rcases hcc : c.contract with _ | ct
  · unfold generateInvoice at h
    rw [hcc] at h
    cases h
  · have hg := generateInvoice_eq invoices c run_date hours mode ov ct hcc
    rw [hg] at h
    rcases hd : (if ov.allow_duplicate then Except.ok none
        else checkDuplicateInvoice invoices c.id
          (resolvedPeriod ov run_date ct.frequency).1
          (resolvedPeriod ov run_date ct.frequency).2) with e | o
    · rw [hd] at h
      cases h
    · rcases o with _ | ex
      · rw [hd] at h
        have hb : builtInvoice invoices c run_date hours mode ov ct = inv := by
          injection h
        rw [← hb]
        exact ⟨rfl, rfl, rfl⟩
      · rw [hd] at h
        cases h

/-- C6 (amended): in every generation mode an email-send failure after a
generated invoice is recorded as a run-level failure entry and leaves the
already-persisted invoice in place with status `generated`, still counted
in `pdfs_generated`; quick, wizard and manual mode additionally set the
run's `failures` counter to 1, while the scheduled batch loop leaves the
`failures` counter untouched on a pure email failure. -/
theorem email_failure_effects (customers : List Customer) (invoices : List Invoice)
    (emailOk : Nat → Bool) :
    (∀ (req : QuickModeRequest) (c : Customer) (inv : Invoice),
      findActiveCustomer customers req.customer_id = some c →
      generateInvoice invoices c req.run_date req.total_hours .quick noOverrides
        = .ok inv →
      req.send_email = true → emailOk c.id = false →
      runQuickMode customers invoices emailOk req
        = (⟨1, 1, 1, 0, 1, [⟨c.id, c.name, emailFailedMsg⟩], none⟩, invoices ++ [inv]) ∧
      inv.status = .generated) ∧
    (∀ (req : WizardModeRequest) (c : Customer) (inv : Invoice),
      findActiveCustomer customers req.customer_id = some c →
      generateInvoice invoices c req.invoice_date req.total_hours .wizard
        (wizardOverrides req) = .ok inv →
      req.send_email = true → emailOk c.id = false →
      runWizardMode customers invoices emailOk req
        = (⟨1, 1, 1, 0, 1, [⟨c.id, c.name, emailFailedMsg⟩], none⟩, invoices ++ [inv]) ∧
      inv.status = .generated) ∧
    (∀ (req : ManualDateOverrideRequest) (c : Customer) (ct : Contract) (inv : Invoice),
      findActiveCustomer customers req.customer_id = some c →
      c.contract = some ct →
      generateInvoice invoices c req.invoice_date ct.default_hours .manual
        ⟨some req.period_start, some req.period_end, none, none, none, false⟩ = .ok inv →
      req.send_email = true → emailOk c.id = false →
      runManualMode customers invoices emailOk req
        = (⟨1, 1, 1, 0, 1, [⟨c.id, c.name, emailFailedMsg⟩], none⟩, invoices ++ [inv]) ∧
      inv.status = .generated) ∧
    (∀ (req : ScheduledRunRequest) (mode : ExecutionMode) (acc : BatchAcc)
        (c : Customer) (ct : Contract) (s : ScheduleConfig) (inv : Invoice),
      c.contract = some ct → c.schedule = some s →
      (req.ignore_schedule = true ∨
        shouldInvoiceToday req.run_date ct.frequency s = true) →
      generateInvoice acc.invoices c req.run_date ct.default_hours mode noOverrides
        = .ok inv →
      req.send_email = true → (req.ignore_schedule = true ∨ s.auto_send_email = true) →
      emailOk c.id = false →
      (stepCustomer req emailOk mode acc c).1
        = {acc with invoices := acc.invoices ++ [inv], schedule_matches := acc.schedule_matches + 1, pdfs_generated := acc.pdfs_generated + 1, failures := acc.failures ++ [⟨c.id, c.name, emailFailedMsg⟩], emails_attempted := acc.emails_attempted ++ [c]} ∧
      (stepCustomer req emailOk mode acc c).1.failures_count = acc.failures_count ∧
      inv.status = .generated) := by
  refine ⟨?_, ?_, ?_, ?_⟩
  · intro req c inv hf hg hs he
    refine ⟨?_, (generateInvoice_ok_fields _ _ _ _ _ _ _ hg).1⟩
    simp [runQuickMode, hf, hg, hs, he]
  · intro req c inv hf hg hs he
    refine ⟨?_, (generateInvoice_ok_fields _ _ _ _ _ _ _ hg).1⟩
    simp [runWizardMode, hf, hg, hs, he]
  · intro req c ct inv hf hc hg hs he
    refine ⟨?_, (generateInvoice_ok_fields _ _ _ _ _ _ _ hg).1⟩
    simp [runManualMode, hf, hc, hg, hs, he]
  · intro req mode acc c ct s inv hc hsch hdue hg hs hauto he
    have hskip : (!req.ignore_schedule
        && !shouldInvoiceToday req.run_date ct.frequency s) = false := by
      rcases hdue with h | h <;> simp [h]
    have hsend : (req.send_email
        && (req.ignore_schedule || s.auto_send_email)) = true := by
      rcases hauto with h | h <;> simp [hs, h]
    refine ⟨?_, ?_, (generateInvoice_ok_fields _ _ _ _ _ _ _ hg).1⟩
    · simp [stepCustomer, hc, hsch, hskip, hsend, hg, he]
    · simp [stepCustomer, hc, hsch, hskip, hsend, hg, he]

/-- Witness for C6 (amended): a quick-mode run whose email send fails
keeps the invoice (status `generated`), counts the PDF, and records one
email failure entry with the failure counter set to 1. -/
theorem email_failure_effects_witness :
    ∃ inv, generateInvoice [] custA ⟨2026, 3, 1⟩ 8 .quick noOverrides = .ok inv ∧
      runQuickMode [custA] [] (fun _ => false) ⟨7, ⟨2026, 3, 1⟩, 8, true⟩
        = (⟨1, 1, 1, 0, 1, [⟨7, "Acme Corp", emailFailedMsg⟩], none⟩, [] ++ [inv]) ∧
      inv.status = .generated := by
  obtain ⟨inv, hg⟩ : ∃ i, generateInvoice [] custA ⟨2026, 3, 1⟩ 8 .quick noOverrides
      = .ok i := ⟨_, rfl⟩
  obtain ⟨heq, hst⟩ := (email_failure_effects [custA] [] (fun _ => false)).1
    ⟨7, ⟨2026, 3, 1⟩, 8, true⟩ custA inv rfl hg rfl rfl
  exact ⟨inv, hg, heq, hst⟩

/-- Counterexample to C6 as stated: in a scheduled batch run with one
due, opted-in customer whose email send fails, the run records the email
failure entry and still counts the generated invoice, but the run's
`failures` counter stays 0 — the counter is not incremented in scheduled
mode. -/
theorem email_failure_counter_counterexample :
    (runScheduled [custA] [] (fun _ => false)
      ⟨⟨2026, 3, 1⟩, false, true, none⟩).1.failures_count = 0 ∧
    (runScheduled [custA] [] (fun _ => false)
      ⟨⟨2026, 3, 1⟩, false, true, none⟩).1.failures.length = 1 ∧
    (runScheduled [custA] [] (fun _ => false)
      ⟨⟨2026, 3, 1⟩, false, true, none⟩).1.pdfs_generated = 1 ∧
    ((runScheduled [custA] [] (fun _ => false)
      ⟨⟨2026, 3, 1⟩, false, true, none⟩).2.1).map Invoice.status
      = [InvoiceStatus.generated] := by
  refine ⟨rfl, rfl, rfl, rfl⟩

theorem stepCustomer_attempts (req : ScheduledRunRequest) (emailOk : Nat → Bool)
    (mode : ExecutionMode) (acc : BatchAcc) (c : Customer) :
    (stepCustomer req emailOk mode acc c).1.emails_attempted = acc.emails_attempted ∨
    ((stepCustomer req emailOk mode acc c).1.emails_attempted
        = acc.emails_attempted ++ [c] ∧
      req.send_email = true ∧
      (req.ignore_schedule = true ∨
        ∃ s, c.schedule = some s ∧ s.auto_send_email = true)) := by
  rcases hcc : c.contract with _ | ct
  · left
    simp [stepCustomer, hcc]
  rcases hsch : c.schedule with _ | s
  · left
    simp [stepCustomer, hcc, hsch]
  cases hif : (!req.ignore_schedule && !shouldInvoiceToday req.run_date ct.frequency s)
  case true =>
    left
    simp [stepCustomer, hcc, hsch, hif]
  case false =>
  rcases hgen : generateInvoice acc.invoices c req.run_date ct.default_hours mode
      noOverrides with e | inv
  · left
    simp [stepCustomer, hcc, hsch, hif, hgen]
  cases hsend : (req.send_email && (req.ignore_schedule || s.auto_send_email))
  case false =>
    left
    simp [stepCustomer, hcc, hsch, hif, hgen, hsend]
  case true =>
    right
    have hmail := Bool.and_eq_true_iff.mp hsend
    refine ⟨?_, hmail.1, ?_⟩
    · cases hem : emailOk c.id <;>
        simp [stepCustomer, hcc, hsch, hif, hgen, hsend, hem]
    · rcases Bool.or_eq_true_iff.mp hmail.2 with h | h
      · exact Or.inl h
      · exact Or.inr ⟨s, rfl, h⟩

theorem processCustomers_attempts (req : ScheduledRunRequest) (emailOk : Nat → Bool)
    (mode : ExecutionMode) :
    ∀ (cs : List Customer) (acc : BatchAcc) (c : Customer),
      c ∈ (processCustomers req emailOk mode acc cs).1.emails_attempted →
      c ∈ acc.emails_attempted ∨
        (req.send_email = true ∧ (req.ignore_schedule = true ∨
          ∃ s, c.schedule = some s ∧ s.auto_send_email = true)) := by
  intro cs
  induction cs with
  | nil => intro acc c h; exact Or.inl h
  | cons d cs ih =>
    intro acc c h
    have h' : c ∈ (processCustomers req emailOk mode
        (stepCustomer req emailOk mode acc d).1 cs).1.emails_attempted := h
    rcases ih (stepCustomer req emailOk mode acc d).1 c h' with hin | hgate
    · rcases stepCustomer_attempts req emailOk mode acc d with he | ⟨he, hsend, hgd⟩
      · rw [he] at hin
        exact Or.inl hin
      · rw [he] at hin
        rcases List.mem_append.mp hin with h1 | h2
        · exact Or.inl h1
        · have hcd : c = d := List.mem_singleton.mp h2
          subst hcd
          exact Or.inr ⟨hsend, hgd⟩
    · exact Or.inr hgate

/-- C8: in a scheduled batch run, the email service is invoked for a
customer only if the run requests emailing and either `ignore_schedule` is
set or that customer's `auto_send_email` flag is set; a customer who has
not opted in is never emailed when `ignore_schedule` is false. -/
theorem run_scheduled_email_optin_spec (customers : List Customer)
    (invoices : List Invoice) (emailOk : Nat → Bool) (req : ScheduledRunRequest) :
    ∀ c ∈ (runScheduled customers invoices emailOk req).2.2.2,
      req.send_email = true ∧
      (req.ignore_schedule = true ∨
        ∃ s, c.schedule = some s ∧ s.auto_send_email = true) := by
  intro c hc
  rcases processCustomers_attempts req emailOk
      (if req.ignore_schedule then .generate_all else .scheduled)
      (selectCustomers customers req) ⟨invoices, 0, 0, 0, 0, [], []⟩ c hc with hin | hgate
  · exact absurd hin (List.not_mem_nil _)
  · exact hgate

/-- Witness for C8 at an opted-in customer: the run requests email and the
customer has `auto_send_email`. -/
theorem run_scheduled_email_optin_spec_witness :
    (⟨⟨2026, 3, 1⟩, false, true, none⟩ : ScheduledRunRequest).send_email = true ∧
    ((⟨⟨2026, 3, 1⟩, false, true, none⟩ : ScheduledRunRequest).ignore_schedule = true ∨
      ∃ s, custA.schedule = some s ∧ s.auto_send_email = true) :=
  run_scheduled_email_optin_spec [custA] [] (fun _ => true)
    ⟨⟨2026, 3, 1⟩, false, true, none⟩ custA (List.mem_singleton_self custA)

/-- C10: in the scheduled batch loop a customer's schedule cursor
(`last_run_date := run_date`, `next_run_date` recomputed from
`run_date + 1`) is advanced exactly on successful invoice generation: a
customer returned changed was due (or the schedule was ignored) with a
contract and schedule present and a successful generation against the
invoice store at that point; conversely, on successful generation the
customer is returned with exactly the advanced cursor — regardless of the
email outcome — and otherwise (skip or generation error) the customer is
returned unchanged. -/
theorem scheduled_cursor_spec (req : ScheduledRunRequest) (emailOk : Nat → Bool)
    (mode : ExecutionMode) (acc : BatchAcc) (c : Customer) :
    ((stepCustomer req emailOk mode acc c).2 ≠ c →
      ∃ ct s inv, c.contract = some ct ∧ c.schedule = some s ∧
        (req.ignore_schedule = true ∨
          shouldInvoiceToday req.run_date ct.frequency s = true) ∧
        generateInvoice acc.invoices c req.run_date ct.default_hours mode noOverrides
          = .ok inv) ∧
    (∀ ct s inv, c.contract = some ct → c.schedule = some s →
      (req.ignore_schedule = true ∨
        shouldInvoiceToday req.run_date ct.frequency s = true) →
      generateInvoice acc.invoices c req.run_date ct.default_hours mode noOverrides
        = .ok inv →
      (stepCustomer req emailOk mode acc c).2
        = {c with schedule := some (cursorUpdate req.run_date ct.frequency s)}) := by
  constructor
  · intro hne
    rcases hcc : c.contract with _ | ct
    · exact absurd (by simp [stepCustomer, hcc]) hne
    rcases hsch : c.schedule with _ | s
    · exact absurd (by simp [stepCustomer, hcc, hsch]) hne
    cases hif : (!req.ignore_schedule && !shouldInvoiceToday req.run_date ct.frequency s)
    case true =>
      exact absurd (by simp [stepCustomer, hcc, hsch, hif]) hne
    case false =>
    have hdue : req.ignore_schedule = true ∨
        shouldInvoiceToday req.run_date ct.frequency s = true := by
      revert hif
      cases req.ignore_schedule <;>
        cases shouldInvoiceToday req.run_date ct.frequency s <;> simp
    rcases hgen : generateInvoice acc.invoices c req.run_date ct.default_hours mode
        noOverrides with e | inv
    · exact absurd (by simp [stepCustomer, hcc, hsch, hif, hgen]) hne
    · exact ⟨ct, s, inv, rfl, rfl, hdue, hgen⟩
  · intro ct s inv hcc hsch hdue hgen
    have hskip : (!req.ignore_schedule
        && !shouldInvoiceToday req.run_date ct.frequency s) = false := by
      rcases hdue with h | h <;> simp [h]
    cases hsend : (req.send_email && (req.ignore_schedule || s.auto_send_email))
    case false =>
      simp [stepCustomer, hcc, hsch, hskip, hgen, hsend]
    case true =>
      cases hem : emailOk c.id <;>
        simp [stepCustomer, hcc, hsch, hskip, hgen, hsend, hem]

/-- Witness for C10: a due customer's successful generation advances the
cursor even though the email send fails. -/
theorem scheduled_cursor_spec_witness :
    ∃ inv, generateInvoice [] custA ⟨2026, 3, 1⟩ ctA.default_hours .scheduled
        noOverrides = .ok inv ∧
      (stepCustomer ⟨⟨2026, 3, 1⟩, false, true, none⟩ (fun _ => false) .scheduled
          ⟨[], 0, 0, 0, 0, [], []⟩ custA).2
        = {custA with schedule := some (cursorUpdate ⟨2026, 3, 1⟩ ctA.frequency schedA)} := by
  obtain ⟨inv, hg⟩ : ∃ i, generateInvoice [] custA ⟨2026, 3, 1⟩ ctA.default_hours
      .scheduled noOverrides = .ok i := ⟨_, rfl⟩
  exact ⟨inv, hg,
    (scheduled_cursor_spec ⟨⟨2026, 3, 1⟩, false, true, none⟩ (fun _ => false) .scheduled
      ⟨[], 0, 0, 0, 0, [], []⟩ custA).2 ctA schedA inv rfl rfl
      (Or.inr (by decide)) hg⟩

end InvoiceApp
